import Mathlib

/-!
Verification of src/audio_processor.cpp (danielmachado86/audio-processor).

This file is a shallow embedding, in Lean 4, of the components of the C++
source that the specification talks about:

* `BatchCircularBuffer` (source lines 60-147): the bounded FIFO queue of
  int32 samples used between the pipeline stages.  Machine integers are
  modelled as `Int`, the ring storage as a `List Int` of length `capacity`.
* `DelayLine` (lines 14-58): the float circular sample buffer.  Float
  samples are modelled as exact rationals; none of the properties proved
  here depend on float rounding.
* `DelayEffect` (lines 989-1137): the int32 block delay with 64-bit
  accumulation and clamping.
* `ReverbEffect` and its filter primitives (lines 432-986).
* `AudioEffectChain` (lines 1140-1234) and the `AudioProcessor` control
  methods and stage-loop constants (lines 1236-1601).

Sizes and indices (C++ `size_t`) are modelled as `Nat`; the one place the
source relies on unsigned wrap-around (`DelayLine::read`) is commented at
its definition.  Deviations of the source from its own interface (it does
not compile as written: `ReverbEffect::process` does not override the base
class signature, and `m_mix`/`setMix` are used but declared nowhere) are
noted at the corresponding definitions.
-/

/-! ### Generic list helpers -/

/-- Reading back the cell that `List.set` just wrote. -/
theorem getD_set_self {α : Type} (d : α) :
    ∀ (l : List α) (i : Nat) (a : α), i < l.length → (l.set i a).getD i d = a := by
  intro l
  induction l with
  | nil => intro i a h; simp at h
  | cons x xs ih =>
    intro i a h
    cases i with
    | zero => rfl
    | succ j => simpa using ih j a (by simpa using h)

/-- A `List.set` at one index leaves every other cell unchanged. -/
theorem getD_set_of_ne {α : Type} (d : α) :
    ∀ (l : List α) (i j : Nat) (a : α), i ≠ j → (l.set i a).getD j d = l.getD j d := by
  intro l
  induction l with
  | nil => intro i j a _; simp
  | cons x xs ih =>
    intro i j a hne
    cases i with
    | zero =>
      cases j with
      | zero => exact absurd rfl hne
      | succ j' => rfl
    | succ i' =>
      cases j with
      | zero => rfl
      | succ j' => simpa using ih i' j' a (fun h => hne (by rw [h]))

/-- The last element of `l ++ [a]`, read with `getD` at index `l.length`. -/
theorem getD_append_self {α : Type} (d : α) :
    ∀ (l : List α) (a : α), (l ++ [a]).getD l.length d = a := by
  intro l
  induction l with
  | nil => intro a; rfl
  | cons x xs ih => intro a; simpa using ih a

/-- Reading inside the left part of an append. -/
theorem getD_append_left {α : Type} (d : α) :
    ∀ (l l' : List α) (j : Nat), j < l.length → (l ++ l').getD j d = l.getD j d := by
  intro l
  induction l with
  | nil => intro l' j h; simp at h
  | cons x xs ih =>
    intro l' j h
    cases j with
    | zero => rfl
    | succ j' => simpa using ih l' j' (by simpa using h)

/-- A fold preserves any invariant preserved by each step. -/
theorem foldl_preserve {α β : Type} (P : α → Prop) (f : α → β → α)
    (hf : ∀ a b, P a → P (f a b)) :
    ∀ (l : List β) (a : α), P a → P (l.foldl f a) := by
  intro l
  induction l with
  | nil => intro a h; exact h
  | cons x xs ih => intro a h; exact ih (f a x) (hf a x h)

/-- Two indices below the modulus that differ stay different after adding a
common offset and reducing mod the modulus. -/
theorem add_mod_ne_of_ne {cap t i j : Nat} (hi : i < cap) (hj : j < cap)
    (hne : i ≠ j) : (t + i) % cap ≠ (t + j) % cap := by
  intro h
  have hmod : i ≡ j [MOD cap] := Nat.ModEq.add_left_cancel' t h
  have : i % cap = j % cap := hmod
  rw [Nat.mod_eq_of_lt hi, Nat.mod_eq_of_lt hj] at this
  exact hne this

/-! ### BatchCircularBuffer (source lines 60-147)

Fields as in the C++ class: the int32 ring `buffer` (resized to `capacity`
by the constructor), `capacity`, `head` (write cursor), `tail` (read
cursor) and the live `size`.  The mutex and the two condition variables
have no data content; which operation waits on / notifies which condition
variable is modelled separately for the shutdown claim. -/

structure BatchCircularBuffer where
  buffer : List Int
  capacity : Nat
  head : Nat
  tail : Nat
  size : Nat
deriving DecidableEq

/-- Constructor (line 73): `buffer.resize(capacity)` value-initialises to 0. -/
def BatchCircularBuffer.init (cap : Nat) : BatchCircularBuffer :=
  ⟨List.replicate cap 0, cap, 0, 0, 0⟩

/-- The copy loop of `write` (lines 93-97): `buffer[head] = data[i]; head =
(head + 1) % capacity;` for each element of `data`. -/
def copyIn (cap : Nat) : List Int → Nat → List Int → List Int × Nat
  | buf, h, [] => (buf, h)
  | buf, h, d :: ds => copyIn cap (buf.set h d) ((h + 1) % cap) ds

/-- The copy loop of `read` (lines 119-123): `data[i] = buffer[tail]; tail =
(tail + 1) % capacity;` repeated `length` times; returns the elements
copied out and the final tail. -/
def copyOut (cap : Nat) (buf : List Int) : Nat → Nat → List Int × Nat
  | t, 0 => ([], t)
  | t, n + 1 =>
    let r := copyOut cap buf ((t + 1) % cap) n
    (buf.getD t 0 :: r.1, r.2)

/-- `BatchCircularBuffer::write(data, length, blocking)` (lines 78-102).
A non-blocking write checks `size + length > capacity` first and fails
without touching any state; a blocking write waits on `notFull` until
`size + length <= capacity`.  In this single-operation embedding a blocking
call whose predicate does not hold is a blocked thread, returned as
`none`; otherwise the copy loop runs and `size` is increased once at the
end, exactly as in the source. -/
def BatchCircularBuffer.write (q : BatchCircularBuffer) (data : List Int)
    (blocking : Bool) : Option (Bool × BatchCircularBuffer) :=
  if blocking = false then
    if q.capacity < q.size + data.length then some (false, q)
    else
      some (true, { q with
        buffer := (copyIn q.capacity q.buffer q.head data).1
        head := (copyIn q.capacity q.buffer q.head data).2
        size := q.size + data.length })
  else
    if q.size + data.length ≤ q.capacity then
      some (true, { q with
        buffer := (copyIn q.capacity q.buffer q.head data).1
        head := (copyIn q.capacity q.buffer q.head data).2
        size := q.size + data.length })
    else none

/-- `BatchCircularBuffer::read(data, length, blocking)` (lines 104-128).
A non-blocking read fails when `size < length` without touching any state
(the caller's array is not written: the returned element list is empty);
a blocking read waits on `notEmpty` until `size >= length`.  On success
the copy loop runs and `size` is decreased once at the end. -/
def BatchCircularBuffer.read (q : BatchCircularBuffer) (length : Nat)
    (blocking : Bool) : Option (Bool × List Int × BatchCircularBuffer) :=
  if blocking = false then
    if q.size < length then some (false, [], q)
    else
      some (true, (copyOut q.capacity q.buffer q.tail length).1, { q with
        tail := (copyOut q.capacity q.buffer q.tail length).2
        size := q.size - length })
  else
    if length ≤ q.size then
      some (true, (copyOut q.capacity q.buffer q.tail length).1, { q with
        tail := (copyOut q.capacity q.buffer q.tail length).2
        size := q.size - length })
    else none

/-- `availableForWrite` (lines 130-133). -/
def BatchCircularBuffer.availableForWrite (q : BatchCircularBuffer) : Nat :=
  q.capacity - q.size

/-- `availableForRead` (lines 135-138). -/
def BatchCircularBuffer.availableForRead (q : BatchCircularBuffer) : Nat :=
  q.size

/-- `clear` (lines 140-146): `head = tail = 0; size = 0;` — the stored
int32 cells themselves are not touched by the source either. -/
def BatchCircularBuffer.clear (q : BatchCircularBuffer) : BatchCircularBuffer :=
  { q with head := 0, tail := 0, size := 0 }

/-- The queue content as seen by a reader: the `size` elements starting at
`tail`, in ring order. -/
def BatchCircularBuffer.contents (q : BatchCircularBuffer) : List Int :=
  (List.range q.size).map (fun i => q.buffer.getD ((q.tail + i) % q.capacity) 0)

/-- Representation invariant of the ring: the storage has length
`capacity`, at most `capacity` cells are live, the read cursor is in
range, and the write cursor sits `size` cells after the read cursor. -/
@[reducible]
def BatchCircularBuffer.inv (q : BatchCircularBuffer) : Prop :=
  q.buffer.length = q.capacity ∧ q.size ≤ q.capacity ∧ q.tail < q.capacity ∧
    q.head = (q.tail + q.size) % q.capacity

theorem copyIn_spec (cap : Nat) :
    ∀ (data buf : List Int) (t s : Nat), buf.length = cap → s + data.length ≤ cap →
    (copyIn cap buf ((t + s) % cap) data).1.length = cap ∧
    (copyIn cap buf ((t + s) % cap) data).2 = (t + (s + data.length)) % cap ∧
    (∀ i, i < s → (copyIn cap buf ((t + s) % cap) data).1.getD ((t + i) % cap) 0 =
      buf.getD ((t + i) % cap) 0) ∧
    (∀ j, j < data.length →
      (copyIn cap buf ((t + s) % cap) data).1.getD ((t + (s + j)) % cap) 0 = data.getD j 0) := by
  intro data
  induction data with
  | nil =>
    intro buf t s hlen _
    refine ⟨hlen, by simp [copyIn], fun i _ => rfl, fun j hj => by simp at hj⟩
  | cons d ds ih =>
    intro buf t s hlen hfit
    have hcap : 0 < cap := by
      have := hfit; simp only [List.length_cons] at this; omega
    have hs : s < cap := by
      have := hfit; simp only [List.length_cons] at this; omega
    have hidx : (t + s) % cap < buf.length := by
      rw [hlen]; exact Nat.mod_lt _ hcap
    -- one step of the loop: write d at the current head, advance the head
    have hstep : copyIn cap buf ((t + s) % cap) (d :: ds) =
        copyIn cap (buf.set ((t + s) % cap) d) ((t + (s + 1)) % cap) ds := by
      show copyIn cap (buf.set ((t + s) % cap) d) (((t + s) % cap + 1) % cap) ds = _
      have : ((t + s) % cap + 1) % cap = (t + (s + 1)) % cap := by
        rw [Nat.mod_add_mod]; ring_nf
      rw [this]
    have hlen' : (buf.set ((t + s) % cap) d).length = cap := by
      rw [List.length_set]; exact hlen
    have hfit' : (s + 1) + ds.length ≤ cap := by
      have := hfit; simp only [List.length_cons] at this; omega
    have main := ih (buf.set ((t + s) % cap) d) t (s + 1) hlen' hfit'
    obtain ⟨m1, m2, m3, m4⟩ := main
    rw [hstep]
    refine ⟨m1, ?_, ?_, ?_⟩
    · rw [m2]; congr 1; simp only [List.length_cons]; ring
    · intro i hi
      have hne : (t + s) % cap ≠ (t + i) % cap :=
        add_mod_ne_of_ne hs (by omega) (by omega)
      rw [m3 i (by omega), getD_set_of_ne _ _ _ _ _ hne]
    · intro j hj
      cases j with
      | zero =>
        have h0 : (copyIn cap (buf.set ((t + s) % cap) d) ((t + (s + 1)) % cap) ds).1.getD
            ((t + s) % cap) 0 = (buf.set ((t + s) % cap) d).getD ((t + s) % cap) 0 :=
          m3 s (by omega)
        have h1 := getD_set_self 0 buf ((t + s) % cap) d hidx
        show (copyIn cap (buf.set ((t + s) % cap) d) ((t + (s + 1)) % cap) ds).1.getD
          ((t + (s + 0)) % cap) 0 = (d :: ds).getD 0 0
        simp only [Nat.add_zero]
        rw [h0, h1]
        rfl
      | succ j' =>
        have hm := m4 j' (by simpa using hj)
        have harith : t + (s + 1 + j') = t + (s + (j' + 1)) := by ring
        rw [harith] at hm
        simpa using hm

theorem copyOut_spec (cap : Nat) (buf : List Int) :
    ∀ (n t : Nat), t < cap →
    (copyOut cap buf t n).1 = (List.range n).map (fun j => buf.getD ((t + j) % cap) 0) ∧
    (copyOut cap buf t n).2 = (t + n) % cap := by
  intro n
  induction n with
  | zero =>
    intro t ht
    exact ⟨by simp [copyOut], by simp [copyOut, Nat.mod_eq_of_lt ht]⟩
  | succ m ih =>
    intro t ht
    have hcap : 0 < cap := by omega
    have ht' : (t + 1) % cap < cap := Nat.mod_lt _ hcap
    obtain ⟨h1, h2⟩ := ih ((t + 1) % cap) ht'
    constructor
    · show buf.getD t 0 :: (copyOut cap buf ((t + 1) % cap) m).1 = _
      rw [h1, List.range_succ_eq_map, List.map_cons, List.map_map]
      congr 1
      · rw [Nat.add_zero, Nat.mod_eq_of_lt ht]
      · apply List.map_congr_left
        intro j _
        simp only [Function.comp_apply, Nat.succ_eq_add_one]
        rw [Nat.mod_add_mod]
        congr 2
        ring
    · show (copyOut cap buf ((t + 1) % cap) m).2 = _
      rw [h2, Nat.mod_add_mod]
      congr 1
      ring

theorem write_success (q : BatchCircularBuffer) (data : List Int) (b : Bool)
    (hq : q.inv) (hfit : q.size + data.length ≤ q.capacity) :
    ∃ q', q.write data b = some (true, q') ∧ q'.inv ∧
      q'.contents = q.contents ++ data ∧ q'.capacity = q.capacity ∧
      q'.tail = q.tail ∧ q'.size = q.size + data.length := by
  obtain ⟨hlen, hsz, htail, hhead⟩ := hq
  have hspec := copyIn_spec q.capacity data q.buffer q.tail q.size hlen hfit
  obtain ⟨s1, s2, s3, s4⟩ := hspec
  have hcopy : copyIn q.capacity q.buffer q.head data =
      copyIn q.capacity q.buffer ((q.tail + q.size) % q.capacity) data := by rw [hhead]
  refine ⟨{ q with
              buffer := (copyIn q.capacity q.buffer q.head data).1
              head := (copyIn q.capacity q.buffer q.head data).2
              size := q.size + data.length }, ?_, ?_, ?_, rfl, rfl, rfl⟩
  · have hnot : ¬ q.capacity < q.size + data.length := by omega
    cases b with
    | false =>
      show BatchCircularBuffer.write q data false = _
      unfold BatchCircularBuffer.write
      rw [if_pos rfl, if_neg hnot]
    | true =>
      show BatchCircularBuffer.write q data true = _
      unfold BatchCircularBuffer.write
      rw [if_neg (by simp), if_pos hfit]
  · refine ⟨by rw [hcopy]; exact s1, by show q.size + data.length ≤ q.capacity; omega,
      htail, ?_⟩
    show (copyIn q.capacity q.buffer q.head data).2 = (q.tail + (q.size + data.length)) % q.capacity
    rw [hcopy]; exact s2
  · show (List.range (q.size + data.length)).map
        (fun i => (copyIn q.capacity q.buffer q.head data).1.getD ((q.tail + i) % q.capacity) 0) = _
    rw [List.range_add, List.map_append, List.map_map]
    congr 1
    · apply List.map_congr_left
      intro i hi
      rw [hcopy]
      exact s3 i (List.mem_range.mp hi)
    · apply List.ext_getElem
      · simp
      · intro j h1 h2
        simp only [List.getElem_map, List.getElem_range, Function.comp_apply]
        rw [hcopy, ← List.getD_eq_getElem data 0 h2]
        exact s4 j (by simpa using h1)

theorem read_success (q : BatchCircularBuffer) (length : Nat) (b : Bool)
    (hq : q.inv) (hfit : length ≤ q.size) :
    ∃ q', q.read length b = some (true, q.contents.take length, q') ∧ q'.inv ∧
      q'.contents = q.contents.drop length ∧ q'.capacity = q.capacity ∧
      q'.size = q.size - length := by
  obtain ⟨hlen, hsz, htail, hhead⟩ := hq
  have hcap : 0 < q.capacity := by omega
  obtain ⟨o1, o2⟩ := copyOut_spec q.capacity q.buffer length q.tail htail
  have htake : q.contents.take length =
      (List.range length).map (fun j => q.buffer.getD ((q.tail + j) % q.capacity) 0) := by
    show ((List.range q.size).map _).take length = _
    rw [← List.map_take, List.take_range, Nat.min_eq_left hfit]
  refine ⟨{ q with
              tail := (copyOut q.capacity q.buffer q.tail length).2
              size := q.size - length }, ?_, ?_, ?_, rfl, rfl⟩
  · have hnot : ¬ q.size < length := by omega
    cases b with
    | false =>
      show BatchCircularBuffer.read q length false = _
      unfold BatchCircularBuffer.read
      rw [if_pos rfl, if_neg hnot, htake, o1]
    | true =>
      show BatchCircularBuffer.read q length true = _
      unfold BatchCircularBuffer.read
      rw [if_neg (by simp), if_pos hfit, htake, o1]
  · refine ⟨hlen, by show q.size - length ≤ q.capacity; omega,
      by show (copyOut q.capacity q.buffer q.tail length).2 < q.capacity
         rw [o2]; exact Nat.mod_lt _ hcap, ?_⟩
    show q.head = ((copyOut q.capacity q.buffer q.tail length).2 + (q.size - length)) % q.capacity
    rw [o2, hhead, Nat.mod_add_mod]
    congr 1
    omega
  · show (List.range (q.size - length)).map
        (fun i => q.buffer.getD (((copyOut q.capacity q.buffer q.tail length).2 + i)
          % q.capacity) 0) = q.contents.drop length
    have hsplit : q.size = length + (q.size - length) := by omega
    have hstep1 : (List.range (q.size - length)).map
        (fun i => q.buffer.getD (((copyOut q.capacity q.buffer q.tail length).2 + i)
          % q.capacity) 0) =
        (List.range (q.size - length)).map
          (fun i => q.buffer.getD ((q.tail + (length + i)) % q.capacity) 0) := by
      apply List.map_congr_left
      intro i _
      rw [o2, Nat.mod_add_mod]
      congr 2
      ring
    rw [hstep1]
    show _ = ((List.range q.size).map
      (fun i => q.buffer.getD ((q.tail + i) % q.capacity) 0)).drop length
    conv_rhs => rw [hsplit]
    rw [List.range_add, List.map_append,
      List.drop_append_of_le_length (by simp), List.map_map]
    have hnil : ((List.range length).map
        (fun i => q.buffer.getD ((q.tail + i) % q.capacity) 0)).drop length = [] := by
      simp
    rw [hnil, List.nil_append]
    rfl

/-- Claim C1: a non-blocking write that would make `size` exceed `capacity`
returns false and changes no internal state (head, tail, size, stored data
and therefore `availableForRead` are those of the unchanged queue); a
non-blocking read requesting more than `availableForRead` returns false,
transfers nothing and leaves the queue unchanged; and on the success side
both operations transfer the whole block at once: a fitting write appends
exactly `data` to the queue content, a satisfiable read removes and
returns exactly the first `length` elements.  No partial transfer occurs
in any case. -/
theorem claim1_queue_all_or_nothing :
    (∀ (q : BatchCircularBuffer) (data : List Int),
      q.capacity < q.size + data.length → q.write data false = some (false, q)) ∧
    (∀ (q : BatchCircularBuffer) (length : Nat),
      q.size < length → q.read length false = some (false, [], q)) ∧
    (∀ (q : BatchCircularBuffer) (data : List Int),
      q.inv → q.size + data.length ≤ q.capacity →
      ∃ q', q.write data false = some (true, q') ∧
        q'.contents = q.contents ++ data ∧
        q'.availableForRead = q.availableForRead + data.length) ∧
    (∀ (q : BatchCircularBuffer) (length : Nat),
      q.inv → length ≤ q.size →
      ∃ q', q.read length false = some (true, q.contents.take length, q') ∧
        q'.contents = q.contents.drop length ∧
        q'.availableForRead = q.availableForRead - length) := by
  refine ⟨?_, ?_, ?_, ?_⟩
  · intro q data h
    unfold BatchCircularBuffer.write
    rw [if_pos rfl, if_pos h]
  · intro q length h
    unfold BatchCircularBuffer.read
    rw [if_pos rfl, if_pos h]
  · intro q data hq hfit
    obtain ⟨q', h1, _, h3, _, _, h6⟩ := write_success q data false hq hfit
    exact ⟨q', h1, h3, h6⟩
  · intro q length hq hfit
    obtain ⟨q', h1, _, h3, _, h5⟩ := read_success q length false hq hfit
    exact ⟨q', h1, h3, h5⟩

/-- Witness for C1 at concrete queues: a 5-element write overflows an
empty capacity-4 queue and leaves it unchanged; reading 1 element from the
empty queue fails; writing `[1, 2, 3]` into the empty capacity-4 queue and
reading 2 back both transfer whole blocks. -/
theorem claim1_queue_all_or_nothing_witness :
    ((BatchCircularBuffer.init 4).capacity <
        (BatchCircularBuffer.init 4).size + ([1, 2, 3, 4, 5] : List Int).length ∧
      (BatchCircularBuffer.init 4).write [1, 2, 3, 4, 5] false =
        some (false, BatchCircularBuffer.init 4)) ∧
    ((BatchCircularBuffer.init 4).size < 1 ∧
      (BatchCircularBuffer.init 4).read 1 false =
        some (false, [], BatchCircularBuffer.init 4)) ∧
    ((BatchCircularBuffer.init 4).inv ∧
      (BatchCircularBuffer.init 4).size + ([1, 2, 3] : List Int).length ≤
        (BatchCircularBuffer.init 4).capacity ∧
      ∃ q', (BatchCircularBuffer.init 4).write [1, 2, 3] false = some (true, q') ∧
        q'.contents = (BatchCircularBuffer.init 4).contents ++ [1, 2, 3] ∧
        q'.availableForRead = (BatchCircularBuffer.init 4).availableForRead + 3) ∧
    (∀ q2, (BatchCircularBuffer.init 4).write [1, 2, 3] false = some (true, q2) →
      q2.inv → 2 ≤ q2.size →
      ∃ q', q2.read 2 false = some (true, q2.contents.take 2, q') ∧
        q'.contents = q2.contents.drop 2 ∧
        q'.availableForRead = q2.availableForRead - 2) := by
  refine ⟨⟨by decide, claim1_queue_all_or_nothing.1 _ _ (by decide)⟩,
    ⟨by decide, claim1_queue_all_or_nothing.2.1 _ _ (by decide)⟩,
    ⟨by decide, by decide, claim1_queue_all_or_nothing.2.2.1 _ _ (by decide) (by decide)⟩,
    ?_⟩
  intro q2 _ hinv hle
  exact claim1_queue_all_or_nothing.2.2.2 q2 2 hinv hle

/-- The claim's sequence of non-blocking writes, one block after another;
stops at the first failing write.  Returns whether all writes succeeded
and the final queue. -/
def writeAll (q : BatchCircularBuffer) : List (List Int) → Bool × BatchCircularBuffer
  | [] => (true, q)
  | b :: bs =>
    match q.write b false with
    | some (true, q1) => writeAll q1 bs
    | some (false, q1) => (false, q1)
    | none => (false, q)

theorem writeAll_spec (cap : Nat) :
    ∀ (bs : List (List Int)) (q : BatchCircularBuffer), q.inv → q.capacity = cap →
    q.size + (bs.map List.length).sum ≤ cap →
    ∃ q', writeAll q bs = (true, q') ∧ q'.inv ∧ q'.capacity = cap ∧
      q'.contents = q.contents ++ bs.flatten ∧
      q'.size = q.size + (bs.map List.length).sum := by
  intro bs
  induction bs with
  | nil =>
    intro q hq hcap hfit
    exact ⟨q, rfl, hq, hcap, by simp, by simp⟩
  | cons b bs ih =>
    intro q hq hcap hfit
    have hfitb : q.size + b.length ≤ q.capacity := by
      simp only [List.map_cons, List.sum_cons] at hfit
      omega
    obtain ⟨q1, h1, hinv1, hc1, hcap1, _, hsz1⟩ := write_success q b false hq hfitb
    have hfit1 : q1.size + (bs.map List.length).sum ≤ cap := by
      simp only [List.map_cons, List.sum_cons] at hfit
      omega
    obtain ⟨q', h2, hinv', hcap', hc', hsz'⟩ := ih q1 hinv1 (by rw [hcap1, hcap]) hfit1
    refine ⟨q', ?_, hinv', hcap', ?_, ?_⟩
    · show (match q.write b false with
        | some (true, q1) => writeAll q1 bs
        | some (false, q1) => (false, q1)
        | none => (false, q)) = (true, q')
      rw [h1]
      exact h2
    · rw [hc', hc1]
      simp
    · rw [hsz', hsz1]
      simp only [List.map_cons, List.sum_cons]
      omega

/-- Counterexample to C2's concrete scenario: on the capacity-8 queue,
after three successful non-blocking writes of 2 samples (6 in use), the
fourth non-blocking write of 2 samples does NOT fail: `size + length = 8`
does not exceed `capacity = 8` (line 82 tests strict overflow), so the
write succeeds and the queue then reports 8 used and 0 free — not 6 used
and 2 free as claimed. -/
theorem claim2_fourth_write_succeeds :
    (writeAll (BatchCircularBuffer.init 8) [[1, 2], [3, 4], [5, 6]]).1 = true ∧
    (writeAll (BatchCircularBuffer.init 8) [[1, 2], [3, 4], [5, 6]]).2.availableForRead = 6 ∧
    ((writeAll (BatchCircularBuffer.init 8) [[1, 2], [3, 4], [5, 6]]).2.write [7, 8] false).map
      (fun p => (p.1, p.2.availableForRead, p.2.availableForWrite)) = some (true, 8, 0) := by
  refine ⟨by decide, by decide, by decide⟩

/-- Claim C2 as amended: `BatchCircularBuffer` is FIFO — for any sequence
of non-blocking writes totalling at most `capacity`, starting from a fresh
queue, every write succeeds and a subsequent blocking read of the total
length returns the written blocks concatenated in write order.  In the
concrete capacity-8 scenario the three 2-sample writes succeed (6 used,
2 free), the fourth 2-sample write also succeeds and exactly fills the
queue (8 used, 0 free), a fifth 2-sample write then fails leaving the
queue unchanged, and a blocking read of 6 samples returns the first three
written blocks concatenated in order. -/
theorem claim2_fifo_amended :
    (∀ (cap : Nat) (bs : List (List Int)), 0 < cap → (bs.map List.length).sum ≤ cap →
      ∃ q1 q2, writeAll (BatchCircularBuffer.init cap) bs = (true, q1) ∧
        q1.read (bs.map List.length).sum true = some (true, bs.flatten, q2)) ∧
    ((writeAll (BatchCircularBuffer.init 8) [[1, 2], [3, 4], [5, 6]]).1 = true ∧
      (writeAll (BatchCircularBuffer.init 8) [[1, 2], [3, 4], [5, 6]]).2.availableForRead = 6 ∧
      (writeAll (BatchCircularBuffer.init 8) [[1, 2], [3, 4], [5, 6]]).2.availableForWrite = 2) ∧
    (((writeAll (BatchCircularBuffer.init 8) [[1, 2], [3, 4], [5, 6]]).2.write [7, 8] false).map
      (fun p => (p.1, p.2.availableForRead, p.2.availableForWrite)) = some (true, 8, 0)) ∧
    (((writeAll (BatchCircularBuffer.init 8) [[1, 2], [3, 4], [5, 6]]).2.write [7, 8] false).bind
      (fun p => p.2.write [9, 10] false)).map
      (fun p => (p.1, p.2.availableForRead)) = some (false, 8) ∧
    (((writeAll (BatchCircularBuffer.init 8) [[1, 2], [3, 4], [5, 6]]).2.write [7, 8] false).bind
      (fun p => p.2.read 6 true)).map
      (fun p => (p.1, p.2.1)) = some (true, [1, 2, 3, 4, 5, 6]) := by
  refine ⟨?_, ⟨by decide, by decide, by decide⟩, by decide, by decide, by decide⟩
  intro cap bs hcap hfit
  have hinv : (BatchCircularBuffer.init cap).inv := by
    refine ⟨by simp [BatchCircularBuffer.init], by simp [BatchCircularBuffer.init], ?_, ?_⟩
    · show 0 < cap
      exact hcap
    · show (0 : Nat) = (0 + 0) % cap
      simp
  obtain ⟨q1, h1, hinv1, hcap1, hc1, hsz1⟩ := writeAll_spec cap bs
    (BatchCircularBuffer.init cap) hinv rfl
    (by show 0 + (bs.map List.length).sum ≤ cap; omega)
  have hc1' : q1.contents = bs.flatten := by
    rw [hc1]
    show (List.range 0).map _ ++ bs.flatten = bs.flatten
    simp
  have hfit1 : (bs.map List.length).sum ≤ q1.size := by omega
  obtain ⟨q2, h2, _, _, _, _⟩ := read_success q1 (bs.map List.length).sum true hinv1 hfit1
  refine ⟨q1, q2, h1, ?_⟩
  rw [h2]
  congr 1
  rw [hc1']
  have hlen : bs.flatten.length = (bs.map List.length).sum := by
    simp [List.length_flatten]
  rw [← hlen, List.take_length]

/-- Witness for the amended C2 at a concrete instance: on a fresh
capacity-4 queue, writing the blocks `[5]` and `[6]` succeeds and a
blocking read of 2 returns `[5, 6]`. -/
theorem claim2_fifo_amended_witness :
    (0 < 4 ∧ (([[5], [6]] : List (List Int)).map List.length).sum ≤ 4) ∧
    ∃ q1 q2, writeAll (BatchCircularBuffer.init 4) [[5], [6]] = (true, q1) ∧
      q1.read (([[5], [6]] : List (List Int)).map List.length).sum true =
        some (true, ([[5], [6]] : List (List Int)).flatten, q2) :=
  ⟨⟨by decide, by decide⟩, claim2_fifo_amended.1 4 [[5], [6]] (by decide) (by decide)⟩

/-! ### The condition variables of BatchCircularBuffer (claim C3)

The queue has two condition variables.  The blocking branch of `read`
waits on `notEmpty` with predicate `size >= length` (line 115); the
blocking branch of `write` waits on `notFull` with predicate
`size + length <= capacity` (line 89).  `clear` (lines 140-146) resets the
cursors and the size and then calls `notFull.notify_all()` — and nothing
else: `notEmpty` is never notified by `clear`.  A thread parked in a
`condition_variable::wait(lock, pred)` resumes only when it is notified
on its own condition variable and `pred` then holds; otherwise it goes
back to sleep. -/

inductive CondVar where
  | notEmpty
  | notFull
deriving DecidableEq

/-- A thread blocked inside a blocking queue operation: a blocking read of
`length` elements or a blocking write of `length` elements. -/
inductive BlockedOp where
  | readB (length : Nat)
  | writeB (length : Nat)

/-- Which condition variable each blocking operation waits on: `read`
waits on `notEmpty` (line 115), `write` waits on `notFull` (line 89). -/
def BlockedOp.waitsOn : BlockedOp → CondVar
  | .readB _ => CondVar.notEmpty
  | .writeB _ => CondVar.notFull

/-- The condition variables notified by `clear` (lines 140-146): only
`notFull.notify_all()` is called. -/
def clearNotifies : List CondVar := [CondVar.notFull]

/-- The wait predicate each blocked operation re-checks when it is woken:
`size >= length` for a read (line 116), `size + length <= capacity` for a
write (line 90). -/
def waitPred (q : BatchCircularBuffer) : BlockedOp → Prop
  | .readB length => length ≤ q.size
  | .writeB length => q.size + length ≤ q.capacity

/-- A thread blocked in operation `op` on queue `q` is released by
`clear q` exactly when its condition variable is among the ones `clear`
notifies and its wait predicate holds in the cleared state. -/
def wokenByClear (q : BatchCircularBuffer) (op : BlockedOp) : Prop :=
  op.waitsOn ∈ clearNotifies ∧ waitPred q.clear op

/-- Claim C3 is a code bug.  `clear` does reset the queue to empty (head,
tail and size all become 0), and a thread blocked in a blocking write is
released (third conjunct: a writer of one period, 960 elements, blocked on
the stage queue of capacity 7680 is woken).  But a thread blocked in a
blocking read — such as the processing stage inside
`firstBuffer->read(data, PERIOD_SIZE * FRAME_SIZE, true)` — is NOT
released by `clear` on any queue state: `clear` never notifies `notEmpty`,
and after the reset its wait predicate `size >= 960` is false anyway.  So
after `stop()` clears the running flag and clears both queues, a
processing thread blocked in the blocking read stays blocked, contrary to
the claim (and to `stop()`'s own `// Wake up threads` comment at line
1370). -/
theorem claim3_clear_leaves_readers_blocked :
    (∀ q : BatchCircularBuffer,
      q.clear.size = 0 ∧ q.clear.head = 0 ∧ q.clear.tail = 0) ∧
    (∀ q : BatchCircularBuffer, ¬ wokenByClear q (BlockedOp.readB 960)) ∧
    wokenByClear (BatchCircularBuffer.init 7680) (BlockedOp.writeB 960) := by
  refine ⟨fun q => ⟨rfl, rfl, rfl⟩, ?_, ?_⟩
  · intro q h
    obtain ⟨hmem, _⟩ := h
    simp [BlockedOp.waitsOn, clearNotifies] at hmem
  · refine ⟨by simp [BlockedOp.waitsOn, clearNotifies], ?_⟩
    show (BatchCircularBuffer.init 7680).clear.size + 960 ≤
      (BatchCircularBuffer.init 7680).clear.capacity
    decide

/-! ### DelayLine (source lines 14-58)

Float samples are modelled as exact rationals; the claims about `DelayLine`
concern only storage and retrieval, not float rounding.  In
`DelayLine::read` the C++ index expression is
`(writeIndex - delayInSamples + maxLen) % maxLen` over `size_t`: when
`delayInSamples > writeIndex` the subtraction wraps modulo 2^64, but
because the clamped delay is at most `maxLen - 1` the subsequent
`+ maxLen` wraps back, so the computed index is exactly
`(writeIndex + maxLen - delay) % maxLen`, which is how it is written
below (with `writeIndex < maxLen` maintained by `write` and `clear`). -/

structure DelayLine where
  buffer : List ℚ
  maxLen : Nat
  writeIndex : Nat
deriving DecidableEq

/-- Constructor (lines 23-27): zero-filled buffer of `cap` samples,
`writeIndex = 0`. -/
def DelayLine.init (cap : Nat) : DelayLine :=
  ⟨List.replicate cap 0, cap, 0⟩

/-- `DelayLine::write` (lines 29-34). -/
def DelayLine.write (L : DelayLine) (sample : ℚ) : DelayLine :=
  { L with
      buffer := L.buffer.set L.writeIndex sample
      writeIndex := (L.writeIndex + 1) % L.maxLen }

/-- `DelayLine::read` (lines 36-48): the delay is clamped to
`maxLen - 1` when it is at least `maxLen`, then the ring is read at
`(writeIndex + maxLen - delay) % maxLen` (see the section comment for the
unsigned-wrap-around analysis). -/
def DelayLine.read (L : DelayLine) (delayInSamples : Nat) : ℚ :=
  L.buffer.getD
    ((L.writeIndex + L.maxLen -
      (if L.maxLen ≤ delayInSamples then L.maxLen - 1 else delayInSamples)) % L.maxLen) 0

/-- `DelayLine::clear` (lines 50-55). -/
def DelayLine.clear (L : DelayLine) : DelayLine :=
  { L with
      buffer := List.replicate L.maxLen 0
      writeIndex := 0 }

/-- `DelayLine::getCapacity` (line 57). -/
def DelayLine.getCapacity (L : DelayLine) : Nat := L.maxLen

/-- A whole write history applied to a delay line, oldest sample first. -/
def writeMany (L : DelayLine) (ws : List ℚ) : DelayLine :=
  ws.foldl DelayLine.write L

/-- The claim's phrase: after the write history `ws` (oldest first), the
sample written `d` writes ago, counting the most recent write as 0 writes
ago. -/
def writtenAgo (ws : List ℚ) (d : Nat) : ℚ :=
  ws.getD (ws.length - 1 - d) 0

theorem writeMany_maxLen (ws : List ℚ) (L : DelayLine) :
    (writeMany L ws).maxLen = L.maxLen := by
  induction ws generalizing L with
  | nil => rfl
  | cons w ws ih => simpa [writeMany, List.foldl_cons] using ih (L.write w)

theorem writeMany_wf (ws : List ℚ) (L : DelayLine)
    (hlen : L.buffer.length = L.maxLen) (hwi : L.writeIndex < L.maxLen) :
    (writeMany L ws).buffer.length = L.maxLen ∧ (writeMany L ws).writeIndex < L.maxLen := by
  induction ws generalizing L with
  | nil => exact ⟨hlen, hwi⟩
  | cons w ws ih =>
    have hcap : 0 < L.maxLen := by omega
    have h1 : (L.write w).buffer.length = (L.write w).maxLen := by
      show (L.buffer.set L.writeIndex w).length = L.maxLen
      rw [List.length_set]; exact hlen
    have h2 : (L.write w).writeIndex < (L.write w).maxLen := Nat.mod_lt _ hcap
    simpa [writeMany, List.foldl_cons] using ih (L.write w) h1 h2

/-- One write shifts every nonzero in-range delay by one: reading delay 1
returns the sample just written, reading delay `d >= 2` returns what delay
`d - 1` returned before the write. -/
theorem read_write_step (L : DelayLine) (a : ℚ) (d : Nat)
    (hlen : L.buffer.length = L.maxLen) (hwi : L.writeIndex < L.maxLen)
    (h1 : 1 ≤ d) (hd : d < L.maxLen) :
    (L.write a).read d = if d = 1 then a else L.read (d - 1) := by
  have hcap : 0 < L.maxLen := by omega
  have hnoclamp : ¬ (L.write a).maxLen ≤ d := by
    show ¬ L.maxLen ≤ d; omega
  have hidx : (L.write a).read d =
      (L.buffer.set L.writeIndex a).getD
        (((L.writeIndex + 1) % L.maxLen + L.maxLen - d) % L.maxLen) 0 := by
    unfold DelayLine.read
    rw [if_neg hnoclamp]
    rfl
  have harith : (L.writeIndex + 1) % L.maxLen + L.maxLen - d =
      (L.writeIndex + 1) % L.maxLen + (L.maxLen - d) := by omega
  have hmod : ((L.writeIndex + 1) % L.maxLen + (L.maxLen - d)) % L.maxLen =
      (L.writeIndex + (1 + (L.maxLen - d))) % L.maxLen := by
    rw [Nat.mod_add_mod]
    congr 1
    ring
  by_cases hone : d = 1
  · subst hone
    have : (L.writeIndex + (1 + (L.maxLen - 1))) % L.maxLen = L.writeIndex := by
      have h3 : L.writeIndex + (1 + (L.maxLen - 1)) = L.writeIndex + L.maxLen := by omega
      rw [h3, Nat.add_mod_right, Nat.mod_eq_of_lt hwi]
    rw [hidx, harith, hmod, this, if_pos rfl]
    exact getD_set_self 0 L.buffer L.writeIndex a (by omega)
  · have hd2 : 2 ≤ d := by omega
    have hc : 1 + (L.maxLen - d) = L.maxLen - (d - 1) := by omega
    have hne : (L.writeIndex + (L.maxLen - (d - 1))) % L.maxLen ≠ L.writeIndex := by
      intro h
      have hlt : L.maxLen - (d - 1) < L.maxLen := by omega
      have h2 : (L.writeIndex + (L.maxLen - (d - 1))) % L.maxLen =
          (L.writeIndex + 0) % L.maxLen := by
        rw [h, Nat.add_zero, Nat.mod_eq_of_lt hwi]
      exact @add_mod_ne_of_ne L.maxLen L.writeIndex (L.maxLen - (d - 1)) 0
        hlt (by omega) (by omega) h2
    have hnoclamp' : ¬ L.maxLen ≤ d - 1 := by omega
    rw [hidx, harith, hmod, hc, if_neg hone]
    rw [getD_set_of_ne 0 L.buffer L.writeIndex ((L.writeIndex + (L.maxLen - (d - 1))) % L.maxLen) a
      (fun h => hne h.symm)]
    unfold DelayLine.read
    rw [if_neg hnoclamp']
    congr 2
    omega

/-- After any write history on a fresh line, reading delay `d` (with
`1 <= d < capacity` and at least `d` writes made) returns the `d`-th most
recent sample. -/
theorem read_history (N : Nat) (ws : List ℚ) :
    ∀ d : Nat, 1 ≤ d → d < N → d ≤ ws.length →
    (writeMany (DelayLine.init N) ws).read d = ws.getD (ws.length - d) 0 := by
  induction ws using List.reverseRecOn with
  | nil => intro d h1 _ hw; simp at hw; omega
  | append_singleton ws a ih =>
    intro d h1 hN hw
    have hcap : 0 < N := by omega
    have hfold : writeMany (DelayLine.init N) (ws ++ [a]) =
        (writeMany (DelayLine.init N) ws).write a := by
      simp [writeMany, List.foldl_append]
    obtain ⟨hlen, hwi⟩ := writeMany_wf ws (DelayLine.init N)
      (by simp [DelayLine.init]) (by simpa [DelayLine.init] using hcap)
    have hml : (writeMany (DelayLine.init N) ws).maxLen = N :=
      writeMany_maxLen ws (DelayLine.init N)
    have hstep := read_write_step (writeMany (DelayLine.init N) ws) a d
      (by rw [hml]; exact hlen) (by rw [hml]; exact hwi)
      h1 (by rw [hml]; exact hN)
    rw [hfold, hstep]
    by_cases hone : d = 1
    · subst hone
      rw [if_pos rfl]
      have : (ws ++ [a]).length - 1 = ws.length := by simp
      rw [this, getD_append_self]
    · rw [if_neg hone]
      have hw' : d - 1 ≤ ws.length := by
        simp only [List.length_append, List.length_singleton] at hw
        omega
      have hj : ws.length - (d - 1) < ws.length := by omega
      have hidx2 : (ws ++ [a]).length - d = ws.length - (d - 1) := by
        simp only [List.length_append, List.length_singleton]
        omega
      rw [ih (d - 1) (by omega) (by omega) hw', hidx2, getD_append_left 0 ws [a] _ hj]

/-- The clamp in `read`: any delay at least `maxLen` reads the same cell
as delay `maxLen - 1`. -/
theorem read_clamp (L : DelayLine) (d : Nat) (h : L.maxLen ≤ d) :
    L.read d = L.read (L.maxLen - 1) := by
  unfold DelayLine.read
  rw [if_pos h]
  by_cases h0 : L.maxLen = 0
  · rw [if_pos (by omega)]
  · rw [if_neg (by omega)]

/-- Counterexample to C5 at `d = 0`, which the claim's range `0 ≤ d < N`
includes: on a fresh capacity-2 line, after writing 5 and then 7, `read 0`
returns 5 — not the sample written 0 writes ago (the most recent write, 7).
`read 0` addresses `buffer[writeIndex]`, the oldest slot of the ring, so
the claimed correspondence is off by one at the bottom of the range. -/
theorem claim5_read_zero_counterexample :
    (writeMany (DelayLine.init 2) [5, 7]).read 0 = 5 ∧
    writtenAgo [5, 7] 0 = 7 ∧
    (writeMany (DelayLine.init 2) [5, 7]).read 0 ≠ writtenAgo [5, 7] 0 := by
  refine ⟨by decide, by decide, by decide⟩

/-- Claim C5 as amended: for a `DelayLine` of capacity `N`, `read d` for
`1 ≤ d < N` returns the sample written `d` writes ago, counting the most
recent write as 1 write ago (that is, after the write history `ws` with at
least `d` writes, `read d = ws[ws.length - d]`); and for every `d ≥ N` the
read index is clamped so that `read d` equals `read (N - 1)` and never
indexes out of range.  (`read 0` instead addresses the oldest slot of the
ring, `buffer[writeIndex]`.) -/
theorem claim5_read_amended :
    (∀ (N : Nat) (ws : List ℚ) (d : Nat), 1 ≤ d → d < N → d ≤ ws.length →
      (writeMany (DelayLine.init N) ws).read d = ws.getD (ws.length - d) 0) ∧
    (∀ (L : DelayLine) (d : Nat), L.maxLen ≤ d → L.read d = L.read (L.maxLen - 1)) :=
  ⟨read_history, read_clamp⟩

/-- Witness for the amended C5: on a capacity-3 line after writing
5, 7, 9, reading delay 2 returns 7 (the second most recent sample), and
reading the out-of-range delay 5 equals reading delay 2. -/
theorem claim5_read_amended_witness :
    (1 ≤ 2 ∧ 2 < 3 ∧ 2 ≤ ([(5 : ℚ), 7, 9] : List ℚ).length ∧
      (writeMany (DelayLine.init 3) [5, 7, 9]).read 2 =
        ([(5 : ℚ), 7, 9] : List ℚ).getD (([(5 : ℚ), 7, 9] : List ℚ).length - 2) 0) ∧
    ((writeMany (DelayLine.init 3) [5, 7, 9]).maxLen ≤ 5 ∧
      (writeMany (DelayLine.init 3) [5, 7, 9]).read 5 =
        (writeMany (DelayLine.init 3) [5, 7, 9]).read
          ((writeMany (DelayLine.init 3) [5, 7, 9]).maxLen - 1)) :=
  ⟨⟨by decide, by decide, by decide,
      claim5_read_amended.1 3 [5, 7, 9] 2 (by decide) (by decide) (by decide)⟩,
    ⟨by decide, claim5_read_amended.2 (writeMany (DelayLine.init 3) [5, 7, 9]) 5 (by decide)⟩⟩

/-- Modelled from the spec: the source file provides no interpolated read
on `DelayLine` (lines 14-58 define only `write`, `read`, `clear` and
`getCapacity`); the spec's FractionalDelayLine additionally specifies
`readInterpolated(delaySamples: real)` as linear interpolation between
`read(floor d)` and `read(floor d + 1)` with fractional weight
`d - floor d`. -/
def DelayLine.readInterpolated (L : DelayLine) (d : ℚ) : ℚ :=
  L.read (⌊d⌋.toNat) * (1 - (d - (⌊d⌋.toNat : ℚ))) +
    L.read (⌊d⌋.toNat + 1) * (d - (⌊d⌋.toNat : ℚ))

/-- Claim C8: at every integer-valued delay `d`, `readInterpolated d`
equals `read d` exactly: the fractional weight is 0, so the interpolation
degenerates to the first sample with no contribution from the second. -/
theorem claim8_interpolation_identity :
    ∀ (L : DelayLine) (n : Nat), L.readInterpolated (n : ℚ) = L.read n := by
  intro L n
  unfold DelayLine.readInterpolated
  rw [Int.floor_natCast, Int.toNat_natCast]
  simp

/-! ### DelayEffect (source lines 989-1137)

The block delay works on int32 samples; products with the float
parameters (`feedback`, `wetLevel`, `dryLevel`) are computed in float and
truncated toward zero by the `static_cast<int64_t>`.  Here the float
products are modelled as exact rational products truncated toward zero;
the clamping properties proved below hold for every possible value of
these products, so they are independent of float rounding. -/

/-- Truncation toward zero of a rational, the behaviour of a C++
`static_cast` from a float to an integer type. -/
def truncQ (q : ℚ) : ℤ :=
  if 0 ≤ q then ⌊q⌋ else ⌈q⌉

/-- The clamp of lines 1120-1121 and 1129-1130:
`std::max(INT32_MIN, std::min(INT32_MAX, x))` on an `int64_t`, after which
the `static_cast<int32_t>` is value-preserving. -/
def clampInt32 (x : ℤ) : ℤ :=
  max (-2147483648) (min 2147483647 x)

/-- The claim's notion of saturation: the nearest value in the int32
range. -/
def saturate32 (x : ℤ) : ℤ :=
  if x < -2147483648 then -2147483648 else if 2147483647 < x then 2147483647 else x

/-- Membership in the 32-bit signed representable range. -/
def inRange32 (x : ℤ) : Prop :=
  -2147483648 ≤ x ∧ x ≤ 2147483647

theorem clampInt32_eq_saturate32 (x : ℤ) : clampInt32 x = saturate32 x := by
  unfold clampInt32 saturate32
  rw [max_def, min_def]
  split_ifs <;> omega

theorem clampInt32_inRange32 (x : ℤ) : inRange32 (clampInt32 x) := by
  unfold clampInt32 inRange32
  rw [max_def, min_def]
  split_ifs <;> omega

/-- A `std::memcpy(dst, src, count * sizeof(sample))` over sample arrays:
the first `count` cells come from `src`, the rest of `dst` is untouched. -/
def memcpyN (dst src : List Int) (count : Nat) : List Int :=
  src.take count ++ dst.drop count

/-- The `DelayEffect` state: per-channel int32 ring buffers and write
cursors, the ring size and the delay in samples, the three float
parameters, the inherited `m_enabled` flag and `m_sampleRate`. -/
structure DelayEffect where
  enabled : Bool
  sampleRate : Nat
  delayBuffers : List (List Int)
  writeIndices : List Nat
  bufferSize : Nat
  delaySamples : Nat
  feedback : ℚ
  wetLevel : ℚ
  dryLevel : ℚ
deriving DecidableEq

/-- `DelayEffect::reset` (lines 1055-1069): 8 channel buffers, each a
zero-filled ring of `bufferSize` cells, all write cursors at 0. -/
def DelayEffect.reset (e : DelayEffect) : DelayEffect :=
  { e with
      delayBuffers := List.replicate 8 (List.replicate e.bufferSize 0)
      writeIndices := List.replicate 8 0 }

/-- `DelayEffect::setDelayTime` (lines 1008-1014): delay in samples is
`(delayTimeMs / 1000) * sampleRate` truncated, the ring gets 1024 guard
cells, and the buffers are rebuilt by `reset`. -/
def DelayEffect.setDelayTime (e : DelayEffect) (delayTimeMs : ℚ) : DelayEffect :=
  DelayEffect.reset { e with
    delaySamples := (truncQ (delayTimeMs / 1000 * e.sampleRate)).toNat
    bufferSize := (truncQ (delayTimeMs / 1000 * e.sampleRate)).toNat + 1024 }

/-- `DelayEffect::setFeedback` (lines 1016-1020). -/
def DelayEffect.setFeedback (e : DelayEffect) (feedback : ℚ) : DelayEffect :=
  { e with feedback := max 0 (min (19 / 20) feedback) }

/-- `DelayEffect::setWetLevel` (lines 1022-1025). -/
def DelayEffect.setWetLevel (e : DelayEffect) (wetLevel : ℚ) : DelayEffect :=
  { e with wetLevel := max 0 (min 1 wetLevel) }

/-- `DelayEffect::setDryLevel` (lines 1027-1030). -/
def DelayEffect.setDryLevel (e : DelayEffect) (dryLevel : ℚ) : DelayEffect :=
  { e with dryLevel := max 0 (min 1 dryLevel) }

/-- `DelayEffect::setMix` (lines 1032-1036). -/
def DelayEffect.setMix (e : DelayEffect) (wetLevel dryLevel : ℚ) : DelayEffect :=
  (e.setWetLevel wetLevel).setDryLevel dryLevel

/-- `DelayEffect::setEnabled` (inherited, line 412). -/
def DelayEffect.setEnabled (e : DelayEffect) (enabled : Bool) : DelayEffect :=
  { e with enabled := enabled }

/-- The `DelayEffect` constructor (lines 1001-1006): the four float
parameters are stored unclamped, `m_sampleRate` starts at the inherited
default 48000, and the body calls `setDelayTime(delayTimeMs)`. -/
def DelayEffect.construct (delayTimeMs feedback wetLevel dryLevel : ℚ) : DelayEffect :=
  DelayEffect.setDelayTime ⟨true, 48000, [], [], 0, 0, feedback, wetLevel, dryLevel⟩ delayTimeMs

/-- The channel-count fix-up at the top of `process` (lines 1084-1098):
when fewer per-channel buffers exist than channels, both vectors are
resized to `channels` and every channel whose ring does not have
`bufferSize` cells gets a fresh zero-filled ring and cursor 0. -/
def DelayEffect.ensureChannels (e : DelayEffect) (channels : Nat) : DelayEffect :=
  if e.delayBuffers.length < channels then
    { e with
        delayBuffers := ((List.range channels).foldl
          (fun (p : List (List Int) × List Nat) i =>
            if (p.1.getD i []).length ≠ e.bufferSize then
              (p.1.set i (List.replicate e.bufferSize 0), p.2.set i 0)
            else p)
          (e.delayBuffers ++ List.replicate (channels - e.delayBuffers.length) [],
           e.writeIndices ++ List.replicate (channels - e.writeIndices.length) 0)).1
        writeIndices := ((List.range channels).foldl
          (fun (p : List (List Int) × List Nat) i =>
            if (p.1.getD i []).length ≠ e.bufferSize then
              (p.1.set i (List.replicate e.bufferSize 0), p.2.set i 0)
            else p)
          (e.delayBuffers ++ List.replicate (channels - e.delayBuffers.length) [],
           e.writeIndices ++ List.replicate (channels - e.writeIndices.length) 0)).2 }
  else e

/-- The loop body of `DelayEffect::process` for one `(sample, ch)` pair
(lines 1100-1134): read the delayed sample, store the clamped
input-plus-feedback into the ring, store the clamped dry-plus-wet mix
into the output buffer, advance the channel's cursor. -/
def DelayEffect.step (e : DelayEffect) (out : List Int) (input : List Int)
    (channels sample ch : Nat) : DelayEffect × List Int :=
  (( { e with
        delayBuffers := e.delayBuffers.set ch ((e.delayBuffers.getD ch []).set
          (e.writeIndices.getD ch 0)
          (clampInt32 (input.getD (sample * channels + ch) 0 +
            truncQ (((e.delayBuffers.getD ch []).getD
              ((e.writeIndices.getD ch 0 + e.bufferSize - e.delaySamples) % e.bufferSize) 0 : ℚ)
              * e.feedback))))
        writeIndices := e.writeIndices.set ch
          ((e.writeIndices.getD ch 0 + 1) % e.bufferSize) } : DelayEffect),
    out.set (sample * channels + ch)
      (clampInt32 (truncQ ((input.getD (sample * channels + ch) 0 : ℚ) * e.dryLevel) +
        truncQ (((e.delayBuffers.getD ch []).getD
          ((e.writeIndices.getD ch 0 + e.bufferSize - e.delaySamples) % e.bufferSize) 0 : ℚ)
          * e.wetLevel))))

/-- The two nested loops of `process` (lines 1100-1135). -/
def DelayEffect.runLoop (e : DelayEffect) (out input : List Int)
    (numSamples channels : Nat) : DelayEffect × List Int :=
  (List.range numSamples).foldl
    (fun acc sample => (List.range channels).foldl
      (fun acc2 ch => DelayEffect.step acc2.1 acc2.2 input channels sample ch) acc)
    (e, out)

/-- `DelayEffect::process` (lines 1071-1136): pass-through copy when the
effect is disabled or `channels == 0`, otherwise the channel fix-up and
the per-sample loop.  `outPrev` is the previous content of the output
buffer (cells past `numSamples * channels` are not written). -/
def DelayEffect.process (e : DelayEffect) (input outPrev : List Int)
    (numSamples channels : Nat) : List Int × DelayEffect :=
  if e.enabled = false ∨ channels = 0 then
    (memcpyN outPrev input (numSamples * channels), e)
  else
    ((DelayEffect.runLoop (e.ensureChannels channels) outPrev input numSamples channels).2,
     (DelayEffect.runLoop (e.ensureChannels channels) outPrev input numSamples channels).1)

/-- An element of `l.getD i []` comes from an element list of `l`. -/
theorem mem_getD_list {l : List (List Int)} {i : Nat} {x : Int}
    (hx : x ∈ l.getD i []) : ∃ b ∈ l, x ∈ b := by
  by_cases h : i < l.length
  · exact ⟨l[i], List.getElem_mem h, by rwa [List.getD_eq_getElem l [] h] at hx⟩
  · rw [List.getD_eq_default l [] (by omega)] at hx
    simp at hx

theorem inRange32_zero : inRange32 0 := by
  unfold inRange32; omega

/-- The all-cells-in-range invariant carried through `process`. -/
def delayAccInRange (acc : DelayEffect × List Int) : Prop :=
  (∀ b ∈ acc.1.delayBuffers, ∀ x ∈ b, inRange32 x) ∧ (∀ x ∈ acc.2, inRange32 x)

theorem step_preserves_inRange (input : List Int) (channels sample ch : Nat)
    (acc : DelayEffect × List Int) (hacc : delayAccInRange acc) :
    delayAccInRange (DelayEffect.step acc.1 acc.2 input channels sample ch) := by
  obtain ⟨hbufs, hout⟩ := hacc
  constructor
  · intro b hb x hx
    rcases List.mem_or_eq_of_mem_set hb with hb' | hb'
    · exact hbufs b hb' x hx
    · subst hb'
      rcases List.mem_or_eq_of_mem_set hx with hx' | hx'
      · obtain ⟨b0, hb0, hxb0⟩ := mem_getD_list hx'
        exact hbufs b0 hb0 x hxb0
      · subst hx'
        rw [clampInt32_eq_saturate32, ← clampInt32_eq_saturate32]
        exact clampInt32_inRange32 _
  · intro x hx
    rcases List.mem_or_eq_of_mem_set hx with hx' | hx'
    · exact hout x hx'
    · subst hx'
      exact clampInt32_inRange32 _

theorem ensureChannels_preserves_inRange (e : DelayEffect) (channels : Nat)
    (h : ∀ b ∈ e.delayBuffers, ∀ x ∈ b, inRange32 x) :
    ∀ b ∈ (e.ensureChannels channels).delayBuffers, ∀ x ∈ b, inRange32 x := by
  have hstep : ∀ (p : List (List Int) × List Nat) (i : Nat),
      (∀ b ∈ p.1, ∀ x ∈ b, inRange32 x) →
      (∀ b ∈ ((fun (p : List (List Int) × List Nat) i =>
          if (p.1.getD i []).length ≠ e.bufferSize then
            (p.1.set i (List.replicate e.bufferSize 0), p.2.set i 0)
          else p) p i).1, ∀ x ∈ b, inRange32 x) := by
    intro p i hp
    by_cases hc : (p.1.getD i []).length ≠ e.bufferSize
    · show ∀ b ∈ (if (p.1.getD i []).length ≠ e.bufferSize then _ else p).1, ∀ x ∈ b, inRange32 x
      rw [if_pos hc]
      intro b hb x hx
      rcases List.mem_or_eq_of_mem_set hb with hb' | hb'
      · exact hp b hb' x hx
      · subst hb'
        rw [List.eq_of_mem_replicate hx]
        exact inRange32_zero
    · show ∀ b ∈ (if (p.1.getD i []).length ≠ e.bufferSize then _ else p).1, ∀ x ∈ b, inRange32 x
      rw [if_neg hc]
      exact hp
  have hinit : ∀ b ∈ e.delayBuffers ++ List.replicate (channels - e.delayBuffers.length) [],
      ∀ x ∈ b, inRange32 x := by
    intro b hb x hx
    rcases List.mem_append.mp hb with hb' | hb'
    · exact h b hb' x hx
    · rw [List.eq_of_mem_replicate hb'] at hx
      simp at hx
  have hfold := foldl_preserve
    (fun (p : List (List Int) × List Nat) => ∀ b ∈ p.1, ∀ x ∈ b, inRange32 x)
    (fun (p : List (List Int) × List Nat) i =>
      if (p.1.getD i []).length ≠ e.bufferSize then
        (p.1.set i (List.replicate e.bufferSize 0), p.2.set i 0)
      else p)
    hstep (List.range channels)
    (e.delayBuffers ++ List.replicate (channels - e.delayBuffers.length) [],
     e.writeIndices ++ List.replicate (channels - e.writeIndices.length) 0) hinit
  unfold DelayEffect.ensureChannels
  split
  · exact hfold
  · exact h

/-- Claim C7: in `DelayEffect::process`, both values computed per sample —
the input-plus-feedback sum stored into the delay ring and the
dry-plus-wet mix stored into the output buffer — are accumulated in the
wider 64-bit integer domain and clamped to `[INT32_MIN, INT32_MAX]`
before storage.  First part: for every state and every loop iteration,
the cell just written in the delay ring equals the saturated value of the
wider-integer sum `input + trunc(delayed * feedback)` and lies in the
representable range, and the cell just written in the output buffer
equals the saturated value of `trunc(input * dry) + trunc(delayed * wet)`
and lies in the representable range — values never wrap sign.  Second
part: for any block, if every cell of the delay rings, of the previous
output buffer and of the input block is representable, then after
`process` every cell of the output buffer and of the delay rings is still
representable. -/
theorem claim7_delay_clamping :
    (∀ (e : DelayEffect) (out input : List Int) (channels sample ch : Nat),
      ch < e.delayBuffers.length →
      e.writeIndices.getD ch 0 < (e.delayBuffers.getD ch []).length →
      sample * channels + ch < out.length →
      (((DelayEffect.step e out input channels sample ch).1.delayBuffers.getD ch []).getD
          (e.writeIndices.getD ch 0) 0 =
        saturate32 (input.getD (sample * channels + ch) 0 +
          truncQ (((e.delayBuffers.getD ch []).getD
            ((e.writeIndices.getD ch 0 + e.bufferSize - e.delaySamples) % e.bufferSize) 0 : ℚ)
            * e.feedback))) ∧
      inRange32 (((DelayEffect.step e out input channels sample ch).1.delayBuffers.getD ch []).getD
          (e.writeIndices.getD ch 0) 0) ∧
      ((DelayEffect.step e out input channels sample ch).2.getD (sample * channels + ch) 0 =
        saturate32 (truncQ ((input.getD (sample * channels + ch) 0 : ℚ) * e.dryLevel) +
          truncQ (((e.delayBuffers.getD ch []).getD
            ((e.writeIndices.getD ch 0 + e.bufferSize - e.delaySamples) % e.bufferSize) 0 : ℚ)
            * e.wetLevel))) ∧
      inRange32 ((DelayEffect.step e out input channels sample ch).2.getD
        (sample * channels + ch) 0)) ∧
    (∀ (e : DelayEffect) (input outPrev : List Int) (numSamples channels : Nat),
      (∀ b ∈ e.delayBuffers, ∀ x ∈ b, inRange32 x) →
      (∀ x ∈ outPrev, inRange32 x) →
      (∀ x ∈ input, inRange32 x) →
      (∀ x ∈ (e.process input outPrev numSamples channels).1, inRange32 x) ∧
      (∀ b ∈ (e.process input outPrev numSamples channels).2.delayBuffers,
        ∀ x ∈ b, inRange32 x)) := by
  constructor
  · intro e out input channels sample ch hch hwi hout
    have hdb : (DelayEffect.step e out input channels sample ch).1.delayBuffers.getD ch [] =
        (e.delayBuffers.getD ch []).set (e.writeIndices.getD ch 0)
          (clampInt32 (input.getD (sample * channels + ch) 0 +
            truncQ (((e.delayBuffers.getD ch []).getD
              ((e.writeIndices.getD ch 0 + e.bufferSize - e.delaySamples) % e.bufferSize) 0 : ℚ)
              * e.feedback))) :=
      getD_set_self [] e.delayBuffers ch _ hch
    have h1 : (((DelayEffect.step e out input channels sample ch).1.delayBuffers.getD ch []).getD
        (e.writeIndices.getD ch 0) 0) =
        clampInt32 (input.getD (sample * channels + ch) 0 +
          truncQ (((e.delayBuffers.getD ch []).getD
            ((e.writeIndices.getD ch 0 + e.bufferSize - e.delaySamples) % e.bufferSize) 0 : ℚ)
            * e.feedback)) := by
      rw [hdb]
      exact getD_set_self 0 _ _ _ hwi
    have h2 : (DelayEffect.step e out input channels sample ch).2.getD
        (sample * channels + ch) 0 =
        clampInt32 (truncQ ((input.getD (sample * channels + ch) 0 : ℚ) * e.dryLevel) +
          truncQ (((e.delayBuffers.getD ch []).getD
            ((e.writeIndices.getD ch 0 + e.bufferSize - e.delaySamples) % e.bufferSize) 0 : ℚ)
            * e.wetLevel)) :=
      getD_set_self 0 out _ _ hout
    refine ⟨by rw [h1, clampInt32_eq_saturate32], by rw [h1]; exact clampInt32_inRange32 _,
      by rw [h2, clampInt32_eq_saturate32], by rw [h2]; exact clampInt32_inRange32 _⟩
  · intro e input outPrev numSamples channels hbufs houtPrev hinput
    unfold DelayEffect.process
    split
    · constructor
      · intro x hx
        rcases List.mem_append.mp hx with hx' | hx'
        · exact hinput x (List.mem_of_mem_take hx')
        · exact houtPrev x (List.mem_of_mem_drop hx')
      · exact hbufs
    · have hens := ensureChannels_preserves_inRange e channels hbufs
      have hloop : delayAccInRange
          (DelayEffect.runLoop (e.ensureChannels channels) outPrev input numSamples channels) := by
        unfold DelayEffect.runLoop
        apply foldl_preserve delayAccInRange _ ?_ (List.range numSamples)
          (e.ensureChannels channels, outPrev) ⟨hens, houtPrev⟩
        intro acc sample hacc
        apply foldl_preserve delayAccInRange _ ?_ (List.range channels) acc hacc
        intro acc2 ch hacc2
        exact step_preserves_inRange input channels sample ch acc2 hacc2
      exact ⟨hloop.2, hloop.1⟩

/-- Witness for C7 at a concrete state: a 2-cell ring holding 5 and 6,
cursor 0, delay 1, feedback/wet/dry all 1/2, input block `[7, 8]` on one
channel; both hypotheses and the block-level range hypotheses hold by
computation. -/
theorem claim7_delay_clamping_witness :
    ((0 : Nat) < (⟨true, 48000, [[5, 6]], [0], 2, 1, 1/2, 1/2, 1/2⟩ :
        DelayEffect).delayBuffers.length ∧
      (⟨true, 48000, [[5, 6]], [0], 2, 1, 1/2, 1/2, 1/2⟩ :
        DelayEffect).writeIndices.getD 0 0 <
        ((⟨true, 48000, [[5, 6]], [0], 2, 1, 1/2, 1/2, 1/2⟩ :
          DelayEffect).delayBuffers.getD 0 []).length ∧
      (0 * 1 + 0 : Nat) < ([0, 0] : List Int).length ∧
      inRange32 (((DelayEffect.step
          (⟨true, 48000, [[5, 6]], [0], 2, 1, 1/2, 1/2, 1/2⟩ : DelayEffect)
          [0, 0] [7, 8] 1 0 0).1.delayBuffers.getD 0 []).getD
          ((⟨true, 48000, [[5, 6]], [0], 2, 1, 1/2, 1/2, 1/2⟩ :
            DelayEffect).writeIndices.getD 0 0) 0)) ∧
    (∀ x ∈ ((⟨true, 48000, [[5, 6]], [0], 2, 1, 1/2, 1/2, 1/2⟩ :
        DelayEffect).process [7, 8] [0, 0] 1 1).1, inRange32 x) := by
  constructor
  · refine ⟨by decide, by decide, by decide, ?_⟩
    exact ((claim7_delay_clamping.1
      (⟨true, 48000, [[5, 6]], [0], 2, 1, 1/2, 1/2, 1/2⟩ : DelayEffect)
      [0, 0] [7, 8] 1 0 0 (by decide) (by decide) (by decide)).2.1)
  · exact ((claim7_delay_clamping.2
      (⟨true, 48000, [[5, 6]], [0], 2, 1, 1/2, 1/2, 1/2⟩ : DelayEffect)
      [7, 8] [0, 0] 1 1
      (by intro b hb x hx; fin_cases hb <;> fin_cases hx <;> exact ⟨by norm_num, by norm_num⟩)
      (by intro x hx; fin_cases hx <;> exact ⟨by norm_num, by norm_num⟩)
      (by intro x hx; fin_cases hx <;> exact ⟨by norm_num, by norm_num⟩)).1)

/-! ### Reverb primitives and ReverbEffect (source lines 432-986)

Float arithmetic is modelled as exact rational arithmetic.  Two remarks on
source fidelity: `ReverbEffect` declares
`void process(int32_t *samples, size_t numFrames, size_t channels)
override` (line 653), which does not match the pure virtual
`process(const int32_t *, int32_t *, size_t, unsigned int)` of the base
class (line 405) — the file does not compile as written on this point;
and `m_mix` / `setMix` are used (lines 667, 823, 1323) but declared
nowhere in the class.  The embedding keeps the observable behaviour of the
written body — in particular a disabled or channel-mismatched reverb
returns immediately and writes no buffer — gives it a `mix` field for the
undeclared `m_mix`, and lets the enabled path read the input block and
write the output block, the intended base-class buffer contract. -/

/-- `AllPassFilter` (lines 432-467). -/
structure AllPassFilter where
  buffer : List ℚ
  bufferSize : Nat
  writeIndex : Nat
  gain : ℚ
deriving DecidableEq

/-- The `AllPassFilter` constructor (lines 441-445). -/
def AllPassFilter.construct (delayInSamples : Nat) (gain : ℚ) : AllPassFilter :=
  ⟨List.replicate delayInSamples 0, delayInSamples, 0, gain⟩

/-- `AllPassFilter::process` (lines 447-458): `output = -gain*input +
delayed; buffer[writeIndex] = input + gain*delayed`. -/
def AllPassFilter.process (f : AllPassFilter) (input : ℚ) : ℚ × AllPassFilter :=
  (-f.gain * input + f.buffer.getD f.writeIndex 0,
   { f with
       buffer := f.buffer.set f.writeIndex (input + f.gain * f.buffer.getD f.writeIndex 0)
       writeIndex := (f.writeIndex + 1) % f.bufferSize })

/-- `AllPassFilter::setGain` (line 466). -/
def AllPassFilter.setGain (f : AllPassFilter) (gain : ℚ) : AllPassFilter :=
  { f with gain := max (-(99 / 100)) (min (99 / 100) gain) }

/-- `CombFilter` (lines 469-511). -/
structure CombFilter where
  buffer : List ℚ
  bufferSize : Nat
  writeIndex : Nat
  feedback : ℚ
  damping : ℚ
  filterState : ℚ
deriving DecidableEq

/-- The `CombFilter` constructor (lines 481-486). -/
def CombFilter.construct (delayInSamples : Nat) (feedback damping : ℚ) : CombFilter :=
  ⟨List.replicate delayInSamples 0, delayInSamples, 0, feedback, damping, 0⟩

/-- `CombFilter::process` (lines 488-500): one-pole lowpass damping then
feedback write; the output is the delayed sample. -/
def CombFilter.process (c : CombFilter) (input : ℚ) : ℚ × CombFilter :=
  (c.buffer.getD c.writeIndex 0,
   { c with
       buffer := c.buffer.set c.writeIndex
         (input + (c.buffer.getD c.writeIndex 0 * (1 - c.damping) +
           c.filterState * c.damping) * c.feedback)
       filterState := c.buffer.getD c.writeIndex 0 * (1 - c.damping) +
         c.filterState * c.damping
       writeIndex := (c.writeIndex + 1) % c.bufferSize })

/-- `CombFilter::setFeedback` (line 509). -/
def CombFilter.setFeedback (c : CombFilter) (feedback : ℚ) : CombFilter :=
  { c with feedback := max 0 (min (99 / 100) feedback) }

/-- `CombFilter::setDamping` (line 510). -/
def CombFilter.setDamping (c : CombFilter) (damping : ℚ) : CombFilter :=
  { c with damping := max 0 (min 1 damping) }

/-- `EarlyReflections` (lines 513-587): an 8-tap delay. -/
structure EarlyReflections where
  buffer : List ℚ
  bufferSize : Nat
  writeIndex : Nat
  taps : List (Nat × ℚ)
deriving DecidableEq

/-- `EarlyReflections::setupTaps` (lines 541-560): tap delays derived from
the room size (`static_cast<size_t>` truncates), gains scaled by it, and
every delay clamped to `bufferSize - 1`. -/
def EarlyReflections.setupTaps (sampleRate : Nat) (roomSize : ℚ)
    (bufferSize : Nat) : List (Nat × ℚ) :=
  ([((truncQ (roomSize * 0.01 * 0.5 * sampleRate)).toNat, 0.8 * roomSize),
    ((truncQ (roomSize * 0.01 * 0.8 * sampleRate)).toNat, 0.6 * roomSize),
    ((truncQ (roomSize * 0.01 * 1.2 * sampleRate)).toNat, 0.7 * roomSize),
    ((truncQ (roomSize * 0.01 * 1.8 * sampleRate)).toNat, 0.5 * roomSize),
    ((truncQ (roomSize * 0.01 * 2.3 * sampleRate)).toNat, 0.4 * roomSize),
    ((truncQ (roomSize * 0.01 * 2.9 * sampleRate)).toNat, 0.3 * roomSize),
    ((truncQ (roomSize * 0.01 * 3.5 * sampleRate)).toNat, 0.25 * roomSize),
    ((truncQ (roomSize * 0.01 * 4.2 * sampleRate)).toNat, 0.2 * roomSize)]).map
    (fun tap => (min tap.1 (bufferSize - 1), tap.2))

/-- The `EarlyReflections` constructor (lines 531-539): buffer for 50 ms. -/
def EarlyReflections.construct (sampleRate : Nat) (roomSize : ℚ) : EarlyReflections :=
  ⟨List.replicate (truncQ ((sampleRate : ℚ) * 0.05)).toNat 0,
   (truncQ ((sampleRate : ℚ) * 0.05)).toNat, 0,
   EarlyReflections.setupTaps sampleRate roomSize (truncQ ((sampleRate : ℚ) * 0.05)).toNat⟩

/-- `EarlyReflections::process` (lines 562-575): write the input, sum the
8 gain-weighted taps, scale by 1/8. -/
def EarlyReflections.process (er : EarlyReflections) (input : ℚ) : ℚ × EarlyReflections :=
  (((er.taps.foldl
      (fun acc tap => acc + (er.buffer.set er.writeIndex input).getD
        ((er.writeIndex + er.bufferSize - tap.1) % er.bufferSize) 0 * tap.2) 0) * 0.125),
   { er with
       buffer := er.buffer.set er.writeIndex input
       writeIndex := (er.writeIndex + 1) % er.bufferSize })

/-- `ReverbEffect::RoomType` (lines 593-602). -/
inductive RoomType where
  | SMALL_ROOM
  | MEDIUM_ROOM
  | LARGE_HALL
  | CATHEDRAL
  | PLATE
  | SPRING
  | CUSTOM
deriving DecidableEq

/-- The `ReverbEffect` state (lines 604-627 plus the inherited enabled
flag and the undeclared `m_mix`). -/
structure ReverbEffect where
  enabled : Bool
  combFiltersL : List CombFilter
  combFiltersR : List CombFilter
  allPassFiltersL : List AllPassFilter
  allPassFiltersR : List AllPassFilter
  earlyReflectionsL : EarlyReflections
  earlyReflectionsR : EarlyReflections
  sampleRate : Nat
  channels : Nat
  roomSize : ℚ
  decay : ℚ
  damping : ℚ
  diffusion : ℚ
  earlyReflectionLevel : ℚ
  mix : ℚ
  roomType : RoomType
deriving DecidableEq

/-- The undeclared `setMix` (used at lines 823 and 1323; `m_mix` is read
at line 667): modelled as plain assignment of the `mix` field, per the
spec's final mix formula `dry*(1-mix) + wet*mix`. -/
def ReverbEffect.setMix (st : ReverbEffect) (v : ℚ) : ReverbEffect :=
  { st with mix := v }

/-- `ReverbEffect::initializeParameters` (lines 766-824): the per-room
preset table, followed by `setMix(0.3)`. -/
def ReverbEffect.initParameters (st : ReverbEffect) : ReverbEffect :=
  ReverbEffect.setMix
    (match st.roomType with
     | RoomType.SMALL_ROOM => { st with
         roomSize := 0.3
         decay := 0.5
         damping := 0.3
         diffusion := 0.6
         earlyReflectionLevel := 0.4 }
     | RoomType.MEDIUM_ROOM => { st with
         roomSize := 0.7
         decay := 0.7
         damping := 0.2
         diffusion := 0.7
         earlyReflectionLevel := 0.3 }
     | RoomType.LARGE_HALL => { st with
         roomSize := 1.5
         decay := 0.85
         damping := 0.15
         diffusion := 0.8
         earlyReflectionLevel := 0.2 }
     | RoomType.CATHEDRAL => { st with
         roomSize := 2.5
         decay := 0.92
         damping := 0.1
         diffusion := 0.9
         earlyReflectionLevel := 0.15 }
     | RoomType.PLATE => { st with
         roomSize := 0.8
         decay := 0.8
         damping := 0.05
         diffusion := 0.95
         earlyReflectionLevel := 0.1 }
     | RoomType.SPRING => { st with
         roomSize := 0.4
         decay := 0.6
         damping := 0.4
         diffusion := 0.5
         earlyReflectionLevel := 0.5 }
     | RoomType.CUSTOM => st) 0.3

/-- `ReverbEffect::createFilters` (lines 826-878): rebuild the 4 parallel
comb filters and 3 serial all-pass filters per channel from size-scaled
delay lengths (distinct sets for stereo width) and both early-reflection
generators. -/
def ReverbEffect.createFilters (st : ReverbEffect) : ReverbEffect :=
  { st with
      combFiltersL := [
        CombFilter.construct
          (truncQ (st.roomSize * (st.sampleRate : ℚ) * 0.03 * 1.0)).toNat st.decay st.damping,
        CombFilter.construct
          (truncQ (st.roomSize * (st.sampleRate : ℚ) * 0.03 * 1.13)).toNat st.decay st.damping,
        CombFilter.construct
          (truncQ (st.roomSize * (st.sampleRate : ℚ) * 0.03 * 1.27)).toNat st.decay st.damping,
        CombFilter.construct
          (truncQ (st.roomSize * (st.sampleRate : ℚ) * 0.03 * 1.41)).toNat st.decay st.damping]
      combFiltersR := [
        CombFilter.construct
          (truncQ (st.roomSize * (st.sampleRate : ℚ) * 0.03 * 1.05)).toNat st.decay st.damping,
        CombFilter.construct
          (truncQ (st.roomSize * (st.sampleRate : ℚ) * 0.03 * 1.18)).toNat st.decay st.damping,
        CombFilter.construct
          (truncQ (st.roomSize * (st.sampleRate : ℚ) * 0.03 * 1.32)).toNat st.decay st.damping,
        CombFilter.construct
          (truncQ (st.roomSize * (st.sampleRate : ℚ) * 0.03 * 1.46)).toNat st.decay st.damping]
      allPassFiltersL := [
        AllPassFilter.construct
          (truncQ (st.roomSize * (st.sampleRate : ℚ) * 0.005 * 1.0)).toNat (st.diffusion * 0.7),
        AllPassFilter.construct
          (truncQ (st.roomSize * (st.sampleRate : ℚ) * 0.005 * 2.1)).toNat (st.diffusion * 0.7),
        AllPassFilter.construct
          (truncQ (st.roomSize * (st.sampleRate : ℚ) * 0.005 * 3.7)).toNat (st.diffusion * 0.7)]
      allPassFiltersR := [
        AllPassFilter.construct
          (truncQ (st.roomSize * (st.sampleRate : ℚ) * 0.005 * 1.1)).toNat (st.diffusion * 0.7),
        AllPassFilter.construct
          (truncQ (st.roomSize * (st.sampleRate : ℚ) * 0.005 * 2.3)).toNat (st.diffusion * 0.7),
        AllPassFilter.construct
          (truncQ (st.roomSize * (st.sampleRate : ℚ) * 0.005 * 3.9)).toNat (st.diffusion * 0.7)]
      earlyReflectionsL := EarlyReflections.construct st.sampleRate st.roomSize
      earlyReflectionsR := EarlyReflections.construct st.sampleRate (st.roomSize * 1.05) }

/-- The `ReverbEffect` constructor (lines 645-651): store sample rate,
channel count and room type, then `initializeParameters()` and
`createFilters()`.  The float parameters are uninitialised until
`initializeParameters` assigns them (every non-CUSTOM preset assigns all
five); they are modelled as starting at 0. -/
def ReverbEffect.construct (sampleRate channels : Nat) (roomType : RoomType) : ReverbEffect :=
  ReverbEffect.createFilters (ReverbEffect.initParameters
    ⟨true, [], [], [], [],
     ⟨[], 0, 0, []⟩, ⟨[], 0, 0, []⟩,
     sampleRate, channels, 0, 0, 0, 0, 0, 0, roomType⟩)

/-- `ReverbEffect::setRoomType` (lines 716-721). -/
def ReverbEffect.setRoomType (st : ReverbEffect) (roomType : RoomType) : ReverbEffect :=
  ReverbEffect.createFilters (ReverbEffect.initParameters { st with roomType := roomType })

/-- `ReverbEffect::getDecay` (line 760). -/
def ReverbEffect.getDecay (st : ReverbEffect) : ℚ := st.decay

/-- `ReverbEffect::getDamping` (line 761). -/
def ReverbEffect.getDamping (st : ReverbEffect) : ℚ := st.damping

/-- `ReverbEffect::setEnabled` (inherited, line 412). -/
def ReverbEffect.setEnabled (st : ReverbEffect) (enabled : Bool) : ReverbEffect :=
  { st with enabled := enabled }

/-- The parallel comb bank of `processMono`/`processStereo` (lines
928-934, 959-967): sum of the four comb outputs, with each filter's state
advanced. -/
def combBank (combs : List CombFilter) (input : ℚ) : ℚ × List CombFilter :=
  combs.foldl
    (fun acc c => ((CombFilter.process c input).1 + acc.1,
      acc.2 ++ [(CombFilter.process c input).2]))
    (0, [])

/-- The serial all-pass chain (lines 936-941, 971-982). -/
def allPassChain (filters : List AllPassFilter) (signal : ℚ) : ℚ × List AllPassFilter :=
  filters.foldl
    (fun acc f => ((AllPassFilter.process f acc.1).1,
      acc.2 ++ [(AllPassFilter.process f acc.1).2]))
    (signal, [])

/-- `ReverbEffect::processMono` (lines 923-944). -/
def ReverbEffect.processMono (st : ReverbEffect) (input : ℚ) : ℚ × ReverbEffect :=
  ((st.earlyReflectionsL.process input).1 * st.earlyReflectionLevel +
    (allPassChain st.allPassFiltersL ((combBank st.combFiltersL input).1 * 0.25)).1 * 0.7,
   { st with
       earlyReflectionsL := (st.earlyReflectionsL.process input).2
       combFiltersL := (combBank st.combFiltersL input).2
       allPassFiltersL :=
         (allPassChain st.allPassFiltersL ((combBank st.combFiltersL input).1 * 0.25)).2 })

/-- `ReverbEffect::processStereo` (lines 946-985): both channels driven
from the summed mono signal through the independent L/R filter banks. -/
def ReverbEffect.processStereo (st : ReverbEffect) (inputL inputR : ℚ) :
    ℚ × ℚ × ReverbEffect :=
  ((st.earlyReflectionsL.process ((inputL + inputR) * 0.5)).1 * st.earlyReflectionLevel +
    (allPassChain st.allPassFiltersL
      ((combBank st.combFiltersL ((inputL + inputR) * 0.5)).1 * 0.25)).1 * 0.7,
   (st.earlyReflectionsR.process ((inputL + inputR) * 0.5)).1 * st.earlyReflectionLevel +
    (allPassChain st.allPassFiltersR
      ((combBank st.combFiltersR ((inputL + inputR) * 0.5)).1 * 0.25)).1 * 0.7,
   { st with
       earlyReflectionsL := (st.earlyReflectionsL.process ((inputL + inputR) * 0.5)).2
       earlyReflectionsR := (st.earlyReflectionsR.process ((inputL + inputR) * 0.5)).2
       combFiltersL := (combBank st.combFiltersL ((inputL + inputR) * 0.5)).2
       combFiltersR := (combBank st.combFiltersR ((inputL + inputR) * 0.5)).2
       allPassFiltersL := (allPassChain st.allPassFiltersL
         ((combBank st.combFiltersL ((inputL + inputR) * 0.5)).1 * 0.25)).2
       allPassFiltersR := (allPassChain st.allPassFiltersR
         ((combBank st.combFiltersR ((inputL + inputR) * 0.5)).1 * 0.25)).2 })

/-- The int32-to-normalised-float conversion (lines 630-636). -/
def int32ToFloat (sample : Int) : ℚ :=
  (sample : ℚ) * (1 / 2147483648)

/-- The float-to-int32 conversion (lines 638-642): clamp to `[-1, 1]`
then scale by `2^31` and truncate.  (At exactly `+1.0` the C++ cast of
`2147483648.0f` to `int32_t` is undefined behaviour; the model keeps the
mathematical value.) -/
def floatToInt32 (sample : ℚ) : Int :=
  truncQ (max (-1) (min 1 sample) * 2147483648)

/-- One frame of the enabled path of `ReverbEffect::process` (lines
660-684), reading from the input block and writing the mixed result into
the output block (see the section comment on the source's signature
mismatch). -/
def ReverbEffect.processFrame (st : ReverbEffect) (dst src : List Int)
    (channels frame : Nat) : ReverbEffect × List Int :=
  if channels = 1 then
    ((st.processMono (int32ToFloat (src.getD frame 0))).2,
     dst.set frame (floatToInt32
       (int32ToFloat (src.getD frame 0) * (1 - st.mix) +
         (st.processMono (int32ToFloat (src.getD frame 0))).1 * st.mix)))
  else if channels = 2 then
    ((st.processStereo (int32ToFloat (src.getD (frame * 2) 0))
        (int32ToFloat (src.getD (frame * 2 + 1) 0))).2.2,
     (dst.set (frame * 2) (floatToInt32
        (int32ToFloat (src.getD (frame * 2) 0) * (1 - st.mix) +
          (st.processStereo (int32ToFloat (src.getD (frame * 2) 0))
            (int32ToFloat (src.getD (frame * 2 + 1) 0))).1 * st.mix))).set (frame * 2 + 1)
       (floatToInt32
        (int32ToFloat (src.getD (frame * 2 + 1) 0) * (1 - st.mix) +
          (st.processStereo (int32ToFloat (src.getD (frame * 2) 0))
            (int32ToFloat (src.getD (frame * 2 + 1) 0))).2.1 * st.mix)))
  else (st, dst)

/-- The frame loop of the enabled path of `ReverbEffect::process`. -/
def ReverbEffect.run (st : ReverbEffect) (src dstPrev : List Int)
    (numFrames channels : Nat) : ReverbEffect × List Int :=
  (List.range numFrames).foldl
    (fun acc frame => ReverbEffect.processFrame acc.1 acc.2 src channels frame)
    (st, dstPrev)

/-- Claim C9: selecting `LARGE_HALL` — by `setRoomType` from any state, or
at construction — pins `getDecay()` to 0.85 and `getDamping()` to 0.15,
the `LARGE_HALL` row of the preset table (lines 786-792). -/
theorem claim9_large_hall_presets :
    ∀ (st : ReverbEffect) (sampleRate channels : Nat),
      (st.setRoomType RoomType.LARGE_HALL).getDecay = 0.85 ∧
      (st.setRoomType RoomType.LARGE_HALL).getDamping = 0.15 ∧
      (ReverbEffect.construct sampleRate channels RoomType.LARGE_HALL).getDecay = 0.85 ∧
      (ReverbEffect.construct sampleRate channels RoomType.LARGE_HALL).getDamping = 0.15 := by
  intro st sampleRate channels
  exact ⟨rfl, rfl, rfl, rfl⟩

/-! ### AudioEffect and AudioEffectChain (source lines 394-1234)

The chain holds `AudioEffect` pointers; the two concrete effects the
program ever builds are `ReverbEffect` and `DelayEffect`, so the dynamic
type is a two-constructor sum.  `AudioEffectChain::process` threads the
block through the effects with a ping-pong between its scratch buffer and
the output buffer; each effect call reads its current input buffer and
(only if the effect actually writes) updates its current output buffer. -/

inductive AudioEffect where
  | reverb (st : ReverbEffect)
  | delay (st : DelayEffect)
deriving DecidableEq

/-- The virtual `process(in, out, numSamples, channels)` dispatch for one
effect: the previous content of the destination buffer is `dstPrev` and
the returned list is its new content.  A disabled (or channel-mismatched)
`ReverbEffect` returns at line 655-658 without touching any buffer, so the
destination keeps its previous content; a `DelayEffect` always writes its
destination (copying the input through when disabled, lines 1074-1082). -/
def AudioEffect.applyProcess (e : AudioEffect) (src dstPrev : List Int)
    (numSamples channels : Nat) : List Int × AudioEffect :=
  match e with
  | .reverb st =>
    if st.enabled = false ∨ channels ≠ st.channels then (dstPrev, .reverb st)
    else ((ReverbEffect.run st src dstPrev numSamples channels).2,
      .reverb (ReverbEffect.run st src dstPrev numSamples channels).1)
  | .delay st =>
    ((st.process src dstPrev numSamples channels).1,
     .delay (st.process src dstPrev numSamples channels).2)

/-- The three block buffers visible to the chain loop: the (const) input
block, the chain's scratch buffer and the output block. -/
structure ChainBufs where
  inB : List Int
  tempB : List Int
  outB : List Int

/-- A buffer pointer as used by `currentInput`/`currentOutput`. -/
inductive BufPtr where
  | pin
  | ptemp
  | pout
deriving DecidableEq

def ChainBufs.getBuf (bufs : ChainBufs) : BufPtr → List Int
  | .pin => bufs.inB
  | .ptemp => bufs.tempB
  | .pout => bufs.outB

def ChainBufs.setBuf (bufs : ChainBufs) : BufPtr → List Int → ChainBufs
  | .pin, l => { bufs with inB := l }
  | .ptemp, l => { bufs with tempB := l }
  | .pout, l => { bufs with outB := l }

/-- The effect loop of `AudioEffectChain::process` (lines 1215-1232): on
the last effect the destination is forced to the output buffer; after
each non-last effect the destination becomes the next input and the next
destination ping-pongs to whichever of scratch/output is not the new
input. -/
def chainSteps (numSamples channels : Nat) :
    List AudioEffect → BufPtr → BufPtr → ChainBufs → ChainBufs × List AudioEffect
  | [], _, _, bufs => (bufs, [])
  | [e], cin, _, bufs =>
    (bufs.setBuf BufPtr.pout
      (e.applyProcess (bufs.getBuf cin) bufs.outB numSamples channels).1,
     [(e.applyProcess (bufs.getBuf cin) bufs.outB numSamples channels).2])
  | e :: e2 :: rest, cin, cout, bufs =>
    (((chainSteps numSamples channels (e2 :: rest) cout
        (if cout = BufPtr.ptemp then BufPtr.pout else BufPtr.ptemp)
        (bufs.setBuf cout
          (e.applyProcess (bufs.getBuf cin) (bufs.getBuf cout) numSamples channels).1)).1),
     (e.applyProcess (bufs.getBuf cin) (bufs.getBuf cout) numSamples channels).2 ::
       (chainSteps numSamples channels (e2 :: rest) cout
        (if cout = BufPtr.ptemp then BufPtr.pout else BufPtr.ptemp)
        (bufs.setBuf cout
          (e.applyProcess (bufs.getBuf cin) (bufs.getBuf cout) numSamples channels).1)).2)

/-- The chain state: the ordered effects and the retained scratch buffer
(`m_tempBuffer`, an initially empty vector that `process` grows with
zero-filled cells). -/
structure AudioEffectChain where
  effects : List AudioEffect
  tempBuffer : List Int

/-- `AudioEffectChain::getEffect` (lines 1165-1168). -/
def AudioEffectChain.getEffect (c : AudioEffectChain) (index : Nat) : Option AudioEffect :=
  c.effects[index]?

/-- `AudioEffectChain::getEffectCount` (lines 1170-1173). -/
def AudioEffectChain.getEffectCount (c : AudioEffectChain) : Nat :=
  c.effects.length

/-- `AudioEffectChain::addEffect` (lines 1147-1150). -/
def AudioEffectChain.addEffect (c : AudioEffectChain) (e : AudioEffect) : AudioEffectChain :=
  { c with effects := c.effects ++ [e] }

/-- `AudioEffectChain::process` (lines 1191-1233): with no effects the
input block is copied to the output; otherwise the scratch buffer is
grown to `numSamples * channels` zero-filled cells if needed, the first
destination is the output buffer for a single effect and the scratch
buffer otherwise, and the loop runs.  Returns the new output-buffer
content and the updated chain. -/
def AudioEffectChain.process (c : AudioEffectChain) (inputBuffer outputBuffer : List Int)
    (numSamples channels : Nat) : List Int × AudioEffectChain :=
  match c.effects with
  | [] => (memcpyN outputBuffer inputBuffer (numSamples * channels), c)
  | e :: rest =>
    ((chainSteps numSamples channels (e :: rest) BufPtr.pin
        (if rest = [] then BufPtr.pout else BufPtr.ptemp)
        ⟨inputBuffer,
         (if c.tempBuffer.length < numSamples * channels then
            c.tempBuffer ++ List.replicate (numSamples * channels - c.tempBuffer.length) 0
          else c.tempBuffer),
         outputBuffer⟩).1.outB,
     ⟨(chainSteps numSamples channels (e :: rest) BufPtr.pin
        (if rest = [] then BufPtr.pout else BufPtr.ptemp)
        ⟨inputBuffer,
         (if c.tempBuffer.length < numSamples * channels then
            c.tempBuffer ++ List.replicate (numSamples * channels - c.tempBuffer.length) 0
          else c.tempBuffer),
         outputBuffer⟩).2,
      (chainSteps numSamples channels (e :: rest) BufPtr.pin
        (if rest = [] then BufPtr.pout else BufPtr.ptemp)
        ⟨inputBuffer,
         (if c.tempBuffer.length < numSamples * channels then
            c.tempBuffer ++ List.replicate (numSamples * channels - c.tempBuffer.length) 0
          else c.tempBuffer),
         outputBuffer⟩).1.tempB⟩)

/-- The reverb built by `AudioProcessor::initialize` (lines 1321-1324):
`ReverbEffect(SAMPLE_RATE, CHANNELS, MEDIUM_ROOM)` then `setMix(0.3)`. -/
def reverbFromInit : ReverbEffect :=
  (ReverbEffect.construct 48000 2 RoomType.MEDIUM_ROOM).setMix 0.3

/-- The delay built by `AudioProcessor::initialize` (lines 1326-1331):
`DelayEffect(getSampleRate(), getChannels())` — the two size arguments
land in the constructor's `delayTimeMs` and `feedback` float parameters —
then `setDelayTime(250)`, `setFeedback(0.3)`, `setMix(0.4, 0.6)`. -/
def delayFromInit : DelayEffect :=
  (((DelayEffect.construct 48000 2 0.3 0.7).setDelayTime 250).setFeedback 0.3).setMix 0.4 0.6

/-- Claim C6 is a code bug.  With zero effects the chain does copy the
input to the output sample-for-sample (first part, proved for every block
shape).  But with every effect disabled the chain does NOT pass the input
through: a disabled `ReverbEffect::process` returns immediately (line
655-658) without copying its input to its output buffer, so the scratch
buffer it was supposed to fill keeps its zero-filled content, and the
disabled `DelayEffect` then faithfully copies those zeros to the output.
On the chain built by `initialize` (reverb then delay, both disabled) the
input block `[1, 1]` (one stereo frame) produces output `[0, 0]` ≠
`[1, 1]`. -/
theorem claim6_disabled_chain_not_passthrough :
    (∀ (tempBuffer inputBuffer outputBuffer : List Int) (numSamples channels : Nat),
      inputBuffer.length = numSamples * channels →
      outputBuffer.length = numSamples * channels →
      (AudioEffectChain.process ⟨[], tempBuffer⟩ inputBuffer outputBuffer
        numSamples channels).1 = inputBuffer) ∧
    ((AudioEffectChain.process
        ⟨[AudioEffect.reverb (reverbFromInit.setEnabled false),
          AudioEffect.delay (delayFromInit.setEnabled false)], []⟩
        [1, 1] [9, 9] 1 2).1 = [0, 0]) ∧
    (([0, 0] : List Int) ≠ [1, 1]) := by
  refine ⟨?_, by decide, by decide⟩
  intro tempBuffer inputBuffer outputBuffer numSamples channels hin hout
  show memcpyN outputBuffer inputBuffer (numSamples * channels) = inputBuffer
  unfold memcpyN
  rw [← hin, List.take_length]
  have h2 : inputBuffer.length = outputBuffer.length := by rw [hin, hout]
  rw [h2, List.drop_length, List.append_nil]

/-- Witness for the zero-effects part of C6: a one-sample mono block is
copied through an empty chain unchanged. -/
theorem claim6_disabled_chain_not_passthrough_witness :
    (([3] : List Int).length = 1 * 1 ∧ ([4] : List Int).length = 1 * 1) ∧
    (AudioEffectChain.process ⟨[], []⟩ [3] [4] 1 1).1 = [3] :=
  ⟨⟨by decide, by decide⟩,
    claim6_disabled_chain_not_passthrough.1 [] [3] [4] 1 1 (by decide) (by decide)⟩

/-! ### AudioProcessor (source lines 1236-1601)

The pipeline-wide constants, the queue lengths the three stage loops pass
to `BatchCircularBuffer::read`/`write`, and the delay control methods. -/

def AudioProcessor.SAMPLE_RATE : Nat := 48000

def AudioProcessor.CHANNELS : Nat := 2

def AudioProcessor.PERIOD_SIZE : Nat := 120

/-- `FRAME_SIZE = CHANNELS * sizeof(int32_t)` (line 1264): a byte count. -/
def AudioProcessor.FRAME_SIZE : Nat := AudioProcessor.CHANNELS * 4

/-- `AUDIO_BUFFER_SIZE = FRAME_SIZE * PERIOD_SIZE * 8` (line 1265), the
capacity (in int32 elements) both queues are constructed with. -/
def AudioProcessor.AUDIO_BUFFER_SIZE : Nat :=
  AudioProcessor.FRAME_SIZE * AudioProcessor.PERIOD_SIZE * 8

/-- The stage block buffers: `captureBuffer`, `processingBuffer` and
`playbackBuffer` each hold `PERIOD_SIZE * CHANNELS` int32 samples
(lines 1451, 1512, 1548). -/
def AudioProcessor.stageBufferLen : Nat :=
  AudioProcessor.PERIOD_SIZE * AudioProcessor.CHANNELS

/-- The element count the capture loop passes to `firstBuffer->write`
(lines 1497-1501): `bytesToWrite = framesRead * FRAME_SIZE` with
`framesRead = PERIOD_SIZE` on a full period. -/
def AudioProcessor.captureWriteLength : Nat :=
  AudioProcessor.PERIOD_SIZE * AudioProcessor.FRAME_SIZE

/-- The element count the processing loop passes to `firstBuffer->read`
(line 1521): `PERIOD_SIZE * FRAME_SIZE`. -/
def AudioProcessor.processingReadLength : Nat :=
  AudioProcessor.PERIOD_SIZE * AudioProcessor.FRAME_SIZE

/-- The element count the processing loop passes to `secondBuffer->write`
(line 1531): `PERIOD_SIZE * FRAME_SIZE`. -/
def AudioProcessor.processingWriteLength : Nat :=
  AudioProcessor.PERIOD_SIZE * AudioProcessor.FRAME_SIZE

/-- The element count the playback loop passes to `secondBuffer->read`
(lines 1549, 1563): `bufferSizeBytes = playbackBuffer.size() *
sizeof(int32_t)`. -/
def AudioProcessor.playbackReadLength : Nat :=
  AudioProcessor.PERIOD_SIZE * AudioProcessor.CHANNELS * 4

/-- Claim C4 is a code bug.  Every queue length the stage loops pass is a
BYTE count (`FRAME_SIZE` includes `sizeof(int32_t)`), yet
`BatchCircularBuffer::write`/`read` copy that many int32 ELEMENTS: all
four lengths equal 960, which is `PERIOD_SIZE * CHANNELS *
sizeof(int32_t)`, not the `PERIOD_SIZE * CHANNELS = 240` samples the
claim (and the spec's block invariant) states — and 960 also exceeds the
240-element stage buffers the data is copied from and into, an
out-of-bounds access in the source. -/
theorem claim4_stage_lengths_are_byte_counts :
    AudioProcessor.captureWriteLength = 960 ∧
    AudioProcessor.processingReadLength = 960 ∧
    AudioProcessor.processingWriteLength = 960 ∧
    AudioProcessor.playbackReadLength = 960 ∧
    AudioProcessor.PERIOD_SIZE * AudioProcessor.CHANNELS = 240 ∧
    AudioProcessor.captureWriteLength ≠ AudioProcessor.PERIOD_SIZE * AudioProcessor.CHANNELS ∧
    AudioProcessor.stageBufferLen < AudioProcessor.captureWriteLength := by
  refine ⟨by decide, by decide, by decide, by decide, by decide, by decide, by decide⟩

/-- `AudioProcessor::setDelayEnabled` (lines 1411-1417): fetch the effect
at index 0, downcast to `DelayEffect*`, and call `setEnabled` only when
the cast yields a delay. -/
def AudioProcessor.setDelayEnabled (c : AudioEffectChain) (enabled : Bool) : AudioEffectChain :=
  match c.getEffect 0 with
  | some (AudioEffect.delay st) =>
    { c with effects := c.effects.set 0 (AudioEffect.delay (st.setEnabled enabled)) }
  | _ => c

/-- `AudioProcessor::setDelayTime` (lines 1419-1425). -/
def AudioProcessor.setDelayTime (c : AudioEffectChain) (delayMs : ℚ) : AudioEffectChain :=
  match c.getEffect 0 with
  | some (AudioEffect.delay st) =>
    { c with effects := c.effects.set 0 (AudioEffect.delay (st.setDelayTime delayMs)) }
  | _ => c

/-- `AudioProcessor::setDelayFeedback` (lines 1427-1433). -/
def AudioProcessor.setDelayFeedback (c : AudioEffectChain) (feedback : ℚ) : AudioEffectChain :=
  match c.getEffect 0 with
  | some (AudioEffect.delay st) =>
    { c with effects := c.effects.set 0 (AudioEffect.delay (st.setFeedback feedback)) }
  | _ => c

/-- `AudioProcessor::setDelayMix` (lines 1435-1441). -/
def AudioProcessor.setDelayMix (c : AudioEffectChain) (wetLevel dryLevel : ℚ) :
    AudioEffectChain :=
  match c.getEffect 0 with
  | some (AudioEffect.delay st) =>
    { c with effects := c.effects.set 0 (AudioEffect.delay (st.setMix wetLevel dryLevel)) }
  | _ => c

/-- The effect chain as `AudioProcessor::initialize` leaves it (lines
1321-1331): the reverb is added first (index 0), the delay second
(index 1); the scratch buffer starts empty. -/
def AudioProcessor.startupChain : AudioEffectChain :=
  ⟨[AudioEffect.reverb reverbFromInit, AudioEffect.delay delayFromInit], []⟩

/-- Claim C10: after `initialize` builds the chain (reverb at index 0,
delay at index 1), each of `setDelayEnabled`, `setDelayTime`,
`setDelayFeedback` and `setDelayMix` is a no-op on the whole chain: each
operates only on the effect at index 0 through a `DelayEffect` downcast,
and index 0 holds the `ReverbEffect`, so the downcast yields null and
nothing is modified.  Proved on the chain `initialize` builds and, more
generally, on every chain whose first effect is a reverb. -/
theorem claim10_delay_setters_noop :
    (∀ (enabled : Bool) (delayMs feedback wetLevel dryLevel : ℚ),
      AudioProcessor.setDelayEnabled AudioProcessor.startupChain enabled =
        AudioProcessor.startupChain ∧
      AudioProcessor.setDelayTime AudioProcessor.startupChain delayMs =
        AudioProcessor.startupChain ∧
      AudioProcessor.setDelayFeedback AudioProcessor.startupChain feedback =
        AudioProcessor.startupChain ∧
      AudioProcessor.setDelayMix AudioProcessor.startupChain wetLevel dryLevel =
        AudioProcessor.startupChain) ∧
    (∀ (st : ReverbEffect) (rest : List AudioEffect) (tempBuffer : List Int)
      (enabled : Bool) (delayMs feedback wetLevel dryLevel : ℚ),
      AudioProcessor.setDelayEnabled ⟨AudioEffect.reverb st :: rest, tempBuffer⟩ enabled =
        ⟨AudioEffect.reverb st :: rest, tempBuffer⟩ ∧
      AudioProcessor.setDelayTime ⟨AudioEffect.reverb st :: rest, tempBuffer⟩ delayMs =
        ⟨AudioEffect.reverb st :: rest, tempBuffer⟩ ∧
      AudioProcessor.setDelayFeedback ⟨AudioEffect.reverb st :: rest, tempBuffer⟩ feedback =
        ⟨AudioEffect.reverb st :: rest, tempBuffer⟩ ∧
      AudioProcessor.setDelayMix ⟨AudioEffect.reverb st :: rest, tempBuffer⟩ wetLevel dryLevel =
        ⟨AudioEffect.reverb st :: rest, tempBuffer⟩) := by
  constructor
  · intro enabled delayMs feedback wetLevel dryLevel
    refine ⟨?_, ?_, ?_, ?_⟩ <;>
      simp [AudioProcessor.setDelayEnabled, AudioProcessor.setDelayTime,
        AudioProcessor.setDelayFeedback, AudioProcessor.setDelayMix,
        AudioEffectChain.getEffect, AudioProcessor.startupChain]
  · intro st rest tempBuffer enabled delayMs feedback wetLevel dryLevel
    refine ⟨?_, ?_, ?_, ?_⟩ <;>
      simp [AudioProcessor.setDelayEnabled, AudioProcessor.setDelayTime,
        AudioProcessor.setDelayFeedback, AudioProcessor.setDelayMix,
        AudioEffectChain.getEffect]
